import Mathlib

/-!
Verification development for the khadamatk/facebook-scrape repository.

The JavaScript sources (src/utils.js, src/scraper.js, src/scraper-optimized.js,
src/api-server.js) are shallowly embedded below.  Pure string and arithmetic
helpers become Lean functions on `List Char` / `Nat`; the scroll loops become
fuel-indexed step functions over an abstract per-iteration item-count sequence
(the count read back from the page after each "reveal more" action); the
browser-dependent parts of a scrape run (login, navigation) are modelled as an
action trace, and the DOM of one post is modelled by the `Article` structure,
carrying exactly the pieces of a `div[role="article"]` node that the extractors
read (innerText, aria-label attributes, span texts, time elements, first link
text).  JavaScript `Date` arithmetic is modelled with the container's timezone
fixed to UTC (the repository's Dockerfile runs node:18 with no TZ set), and
floating-point numeric expressions that the sources round to integers are
computed with exact rational arithmetic over `Nat`.
-/

/-! ### JavaScript character classes -/

/-- Characters matched by the JavaScript regex class `\s`
(whitespace, line terminators, NBSP and the Unicode space block). -/
def isSpaceJS (c : Char) : Bool :=
  c = ' ' || c = '\t' || c = '\n' || c = '\r' || c = '\x0b' || c = '\x0c' ||
  c.toNat = 0xa0 || c.toNat = 0xfeff || c.toNat = 0x1680 ||
  (0x2000 ≤ c.toNat && c.toNat ≤ 0x200a) ||
  c.toNat = 0x2028 || c.toNat = 0x2029 || c.toNat = 0x202f || c.toNat = 0x205f ||
  c.toNat = 0x3000

/-- Characters matched by the JavaScript regex class `\w` (no `u` flag):
ASCII letters, ASCII digits and underscore. -/
def isWordCharJS (c : Char) : Bool :=
  ('a' ≤ c && c ≤ 'z') || ('A' ≤ c && c ≤ 'Z') || c.isDigit || c = '_'

/-- Arabic-Indic digits `٠`-`٩`. -/
def isArabicDigit (c : Char) : Bool :=
  0x660 ≤ c.toNat && c.toNat ≤ 0x669

/-- A digit in either script, the class `[0-9٠-٩]` used throughout
the scrapers. -/
def isDigitEx (c : Char) : Bool :=
  c.isDigit || isArabicDigit c

/-- One character of `normalizeArabicDigits` (src/utils.js): Arabic-Indic
digits map to their Latin counterpart, everything else is unchanged. -/
def arabicToLatinChar (c : Char) : Char :=
  if isArabicDigit c then Char.ofNat (c.toNat - 0x660 + 48) else c

/-- `normalizeArabicDigits` (src/utils.js) on a character list. -/
def normalizeArabicDigitsL (l : List Char) : List Char :=
  l.map arabicToLatinChar

/-- `String.prototype.toLowerCase` restricted to the scripts the sources use
(ASCII letters; Arabic has no case). -/
def lowerL (l : List Char) : List Char :=
  l.map Char.toLower

/-- `String.prototype.trim`. -/
def trimJS (l : List Char) : List Char :=
  ((l.dropWhile isSpaceJS).reverse.dropWhile isSpaceJS).reverse

/-- Helper of `collapseWS`: remove one of every two adjacent spaces. -/
def squeezeSpaces : List Char → List Char
  | [] => []
  | [c] => [c]
  | a :: b :: rest =>
    if a = ' ' && b = ' ' then squeezeSpaces (b :: rest)
    else a :: squeezeSpaces (b :: rest)

/-- `replace(/\s+/g, ' ')`: every maximal whitespace run becomes one space. -/
def collapseWS (l : List Char) : List Char :=
  squeezeSpaces (l.map (fun c => if isSpaceJS c then ' ' else c))

/-- Does `pat` occur verbatim at the head of `l`? -/
def litHere : List Char → List Char → Bool
  | [], _ => true
  | _ :: _, [] => false
  | p :: ps, c :: cs => p = c && litHere ps cs

/-- Does the (pre-lowercased) pattern occur at the head of `l`, comparing
case-insensitively (the `i` regex flag)? -/
def ciHere : List Char → List Char → Bool
  | [], _ => true
  | _ :: _, [] => false
  | p :: ps, c :: cs => p = c.toLower && ciHere ps cs

/-- Substring test, `pat` matched verbatim anywhere in `l`. -/
def containsSub (pat : List Char) : List Char → Bool
  | [] => litHere pat []
  | c :: rest => litHere pat (c :: rest) || containsSub pat rest

/-- Substring test with the `i` flag: `pat` is pre-lowercased, the haystack is
lowercased position by position. -/
def containsSubCI (pat : List Char) : List Char → Bool
  | [] => ciHere pat []
  | c :: rest => ciHere pat (c :: rest) || containsSubCI pat rest

/-- Numeric value of a list of ASCII digit characters (most significant
first), as `parseInt` computes it on a pure digit string. -/
def digitsVal (l : List Char) : Nat :=
  l.foldl (fun a c => a * 10 + (c.toNat - 48)) 0

/-- The leading digit run of `l`, `none` when there is none. -/
def leadDigits (l : List Char) : Option Nat :=
  let ds := l.takeWhile Char.isDigit
  if ds.isEmpty then none else some (digitsVal ds)

/-- `parseInt(s, 10)`: optional sign, then a maximal digit run; `NaN`
(here `none`) when no digit follows. -/
def jsParseInt (l : List Char) : Option Int :=
  let l2 := l.dropWhile isSpaceJS
  match l2 with
  | [] => none
  | c :: rest =>
    if c = '-' then
      match leadDigits rest with
      | some n => some (-(n : Int))
      | none => none
    else if c = '+' then
      match leadDigits rest with
      | some n => some ((n : Int))
      | none => none
    else
      match leadDigits l2 with
      | some n => some ((n : Int))
      | none => none

/-- JavaScript falsiness of a string: only the empty string is falsy. -/
def strFalsy (s : String) : Bool :=
  s.data.isEmpty

/-- `Math.round (num / den)` for a nonnegative exact quotient: round half
away from zero, computed exactly over `Nat`. -/
def jsRoundDiv (num den : Nat) : Nat :=
  (2 * num + den) / (2 * den)

/-! ### parseCount (src/utils.js, served through src/api-server.js)

`parseCount` lowercases and digit-normalizes its input, picks a magnitude
factor by testing word-bounded patterns (`\b(الف|ألف)\b`, ..., `\bk\b`,
`\bm\b`, `\bb\b`), extracts the first `[0-9]+(\.[0-9]+)?` token and rounds
`token * factor`; with no token it strips all non-digits and parses the rest.
JavaScript `\b` matches only between a `\w` character and a non-`\w`
character (string edges counting as non-`\w`), which the embedding
reproduces exactly. -/

/-- Is there a JS word boundary between two adjacent positions holding these
characters (`none` = string edge)? -/
def jsBoundary (a b : Option Char) : Bool :=
  (match a with | none => false | some x => isWordCharJS x) !=
  (match b with | none => false | some y => isWordCharJS y)

/-- Scan for a word-bounded occurrence of `pat` (nonempty), with `left` the
character just before the current position. -/
def twbAux (pat : List Char) : Option Char → List Char → Bool
  | _, [] => false
  | left, c :: rest =>
    (litHere pat (c :: rest) &&
      jsBoundary left (some c) &&
      jsBoundary ((c :: rest).get? (pat.length - 1)) ((c :: rest).get? pat.length)) ||
    twbAux pat (some c) rest

/-- `new RegExp("\\b" ++ pat ++ "\\b").test s` for a literal `pat`. -/
def testWordBounded (pat : List Char) (l : List Char) : Bool :=
  twbAux pat none l

/-- First match of `([0-9]+(\.[0-9]+)?)`: returns `(mantissa, fracLen)` so
that the token's value is `mantissa / 10 ^ fracLen`. -/
def firstNumToken : List Char → Option (Nat × Nat)
  | [] => none
  | c :: rest =>
    if c.isDigit then
      let ds := (c :: rest).takeWhile Char.isDigit
      let r1 := (c :: rest).dropWhile Char.isDigit
      match r1 with
      | '.' :: r2 =>
        let fs := r2.takeWhile Char.isDigit
        if fs.isEmpty then some (digitsVal ds, 0)
        else some (digitsVal ds * 10 ^ fs.length + digitsVal fs, fs.length)
      | _ => some (digitsVal ds, 0)
    else firstNumToken rest

/-- `parseCount` (src/utils.js): textual counts such as "2.3K" or Arabic
forms to an integer, `none` when not parsable. -/
def parseCount (text : String) : Option Nat :=
  if strFalsy text then none
  else
    let s := lowerL (trimJS (normalizeArabicDigitsL text.data))
    let s := (s.map (fun c => if c.toNat = 0x66b then '.' else c)).filter
      (fun c => c.toNat ≠ 0x66c)
    let factor : Nat :=
      if testWordBounded "الف".data s || testWordBounded "ألف".data s then 1000
      else if testWordBounded "مليون".data s || testWordBounded "ملايين".data s then 1000000
      else if testWordBounded "مليار".data s || testWordBounded "مليارات".data s then 1000000000
      else if testWordBounded ['k'] s then 1000
      else if testWordBounded ['m'] s then 1000000
      else if testWordBounded ['b'] s then 1000000000
      else 1
    match firstNumToken s with
    | some (mant, e) => some (jsRoundDiv (mant * factor) (10 ^ e))
    | none =>
      let ds := s.filter Char.isDigit
      if ds.isEmpty then none else some (digitsVal ds)

/-! ### The scroll loops (loadArticles in src/scraper.js; the inline loop in
src/scraper-optimized.js)

Both loops keep `lastCount`/`stalls` counters, read the number of
`div[role="article"]` nodes each iteration (abstracted as `counts i`), break
when the count reaches the target, and break after `stallLimit` stalls; a
hard iteration ceiling bounds the loop.  They differ in one detail:
`loadArticles` updates `lastCount` only when the count grew, the optimized
loop updates it every iteration. -/

/-- Loop state of either scroll loop. -/
structure ScrollState where
  last : Nat
  stalls : Nat
deriving DecidableEq, Repr

/-- Why a scroll loop stopped. -/
inductive StopCause where
  | target
  | stall
  | budget
deriving DecidableEq, Repr

/-- One non-breaking iteration of `loadArticles` (src/scraper.js lines
299-304): on a stall only `stalls` moves, on growth `lastCount` is updated
and `stalls` reset. -/
def loadStep (st : ScrollState) (count : Nat) : ScrollState :=
  if count ≤ st.last then { st with stalls := st.stalls + 1 }
  else { last := count, stalls := 0 }

/-- One non-breaking iteration of the optimized loop (src/scraper-optimized.js
lines 69-72): `lastCount` is updated unconditionally. -/
def optStep (st : ScrollState) (count : Nat) : ScrollState :=
  if count ≤ st.last then { last := count, stalls := st.stalls + 1 }
  else { last := count, stalls := 0 }

/-- Run a scroll loop: `fuel` iterations remain, `i` iterations were already
executed.  Returns the total number of executed iterations and the cause of
termination. -/
def runLoop (step : ScrollState → Nat → ScrollState) (counts : Nat → Nat)
    (target stallLimit : Nat) : Nat → Nat → ScrollState → Nat × StopCause
  | 0, i, _ => (i, .budget)
  | fuel + 1, i, st =>
    if target ≤ counts i then (i + 1, .target)
    else
      let st' := step st (counts i)
      if stallLimit ≤ st'.stalls then (i + 1, .stall)
      else runLoop step counts target stallLimit fuel (i + 1) st'

/-- `loadArticles` (src/scraper.js): stall limit and iteration ceiling come
from the options (`SCROLL_STALL_LIMIT`, `SCROLL_MAX_LOOPS`). -/
def loadArticlesRun (counts : Nat → Nat) (target stallLimit maxLoops : Nat) :
    Nat × StopCause :=
  runLoop loadStep counts target stallLimit maxLoops 0 ⟨0, 0⟩

/-- The optimized scraper's loop (src/scraper-optimized.js lines 61-74):
the ceiling 100 and the stall limit 5 are hard-coded. -/
def optimizedScrollRun (counts : Nat → Nat) (target : Nat) : Nat × StopCause :=
  runLoop optStep counts target 5 100 0 ⟨0, 0⟩

/-- State of either loop before iteration `i`, when no break has occurred;
target-reaching iterations perform no counter update. -/
def loopTrace (step : ScrollState → Nat → ScrollState) (counts : Nat → Nat)
    (target : Nat) : Nat → ScrollState
  | 0 => ⟨0, 0⟩
  | i + 1 =>
    let st := loopTrace step counts target i
    if target ≤ counts i then st else step st (counts i)

/-! ### JavaScript Date model (proleptic Gregorian calendar, UTC)

`parseDateToISO` (src/utils.js) leans on `new Date`, the setter normalization
rules and `toISOString`.  Those are modelled here over milliseconds since the
Unix epoch (`Int`), with the civil calendar computed from days since
0000-01-01.  The deployment environment (node:18 container, no TZ) runs in
UTC, so local-time setters coincide with their UTC counterparts. -/

/-- Gregorian leap-year rule. -/
def isLeap (y : Nat) : Bool :=
  (y % 4 == 0 && y % 100 != 0) || y % 400 == 0

/-- Days in month `m` (1-12) of year `y`. -/
def daysInMonth (y m : Nat) : Nat :=
  match m with
  | 1 => 31
  | 2 => if isLeap y then 29 else 28
  | 3 => 31
  | 4 => 30
  | 5 => 31
  | 6 => 30
  | 7 => 31
  | 8 => 31
  | 9 => 30
  | 10 => 31
  | 11 => 30
  | _ => 31

/-- Days in year `y`. -/
def daysInYear (y : Nat) : Nat :=
  if isLeap y then 366 else 365

/-- Total days of the `k` consecutive months starting at month `m0` of
year `y` (month arithmetic stays inside one year for `m0 + k ≤ 13`). -/
def monthSpan (y : Nat) : Nat → Nat → Nat
  | _, 0 => 0
  | m0, k + 1 => daysInMonth y m0 + monthSpan y (m0 + 1) k

/-- Total days of the `k` consecutive years starting at year `y0`. -/
def yearSpan : Nat → Nat → Nat
  | _, 0 => 0
  | y0, k + 1 => daysInYear y0 + yearSpan (y0 + 1) k

/-- Days from 0000-01-01 to 1970-01-01. -/
def epochDays : Nat := yearSpan 0 1970

/-- Locate the year containing absolute day `n`, starting the search at year
`y` with `fuel` years to go; returns the year and the day-of-year. -/
def findYear : Nat → Nat → Nat → Nat × Nat
  | 0, y, n => (y, n)
  | fuel + 1, y, n =>
    if n < daysInYear y then (y, n)
    else findYear fuel (y + 1) (n - daysInYear y)

/-- Locate the month of year `y` containing day-of-year `doy`, starting at
month `m`; returns the month and the (1-based) day of month. -/
def findMonth (y : Nat) : Nat → Nat → Nat → Nat × Nat
  | 0, m, doy => (m, doy + 1)
  | fuel + 1, m, doy =>
    if doy < daysInMonth y m then (m, doy + 1)
    else findMonth y fuel (m + 1) (doy - daysInMonth y m)

/-- The UTC fields `toISOString` prints. -/
structure DateParts where
  year : Nat
  month : Nat
  day : Nat
  hour : Nat
  minute : Nat
  second : Nat
  ms : Nat
deriving DecidableEq, Repr

/-- Epoch milliseconds of a field bundle; `d` is an `Int` so that the JS
setter semantics of out-of-range day numbers (day 0 = last day of the
previous month, day 32 = start of the next month, ...) fall out of the
formula. -/
def epochMillisD (y m : Nat) (d : Int) (h mi s ms : Nat) : Int :=
  ((yearSpan 0 y + monthSpan y 1 (m - 1) : Nat) : Int) * 86400000 +
  (d - 1) * 86400000 +
  ((h * 3600000 + mi * 60000 + s * 1000 + ms : Nat) : Int) -
  ((epochDays : Nat) : Int) * 86400000

/-- Epoch milliseconds with a natural day number. -/
def epochMillisN (y m d h mi s ms : Nat) : Int :=
  epochMillisD y m (d : Int) h mi s ms

/-- UTC calendar fields of an epoch-milliseconds value (defined for dates
from year 0 to year 9999, the range reachable from the scrapers' inputs). -/
def utcComponents (t : Int) : DateParts :=
  let total := (t + ((epochDays : Nat) : Int) * 86400000).toNat
  let days := total / 86400000
  let tod := total % 86400000
  let yd := findYear 10000 0 days
  let md := findMonth yd.1 12 1 yd.2
  { year := yd.1, month := md.1, day := md.2,
    hour := tod / 3600000, minute := tod % 3600000 / 60000,
    second := tod % 60000 / 1000, ms := tod % 1000 }

/-- The ASCII digit character of `n % 10`. -/
def digitChar (n : Nat) : Char :=
  match n % 10 with
  | 0 => '0'
  | 1 => '1'
  | 2 => '2'
  | 3 => '3'
  | 4 => '4'
  | 5 => '5'
  | 6 => '6'
  | 7 => '7'
  | 8 => '8'
  | _ => '9'

/-- Two-digit zero-padded print of `n < 100`. -/
def pad2 (n : Nat) : List Char := [digitChar (n / 10), digitChar n]

/-- Three-digit zero-padded print of `n < 1000`. -/
def pad3 (n : Nat) : List Char := [digitChar (n / 100), digitChar (n / 10), digitChar n]

/-- Four-digit zero-padded print of `n < 10000`. -/
def pad4 (n : Nat) : List Char :=
  [digitChar (n / 1000), digitChar (n / 100), digitChar (n / 10), digitChar n]

/-- The character list `toISOString` produces from given UTC fields. -/
def isoChars (y m d h mi s ms : Nat) : List Char :=
  pad4 y ++ '-' :: pad2 m ++ '-' :: pad2 d ++ 'T' :: pad2 h ++ ':' :: pad2 mi ++
    ':' :: pad2 s ++ '.' :: pad3 ms ++ ['Z']

/-- `toISOString` output as a string. -/
def isoString (y m d h mi s ms : Nat) : String :=
  String.mk (isoChars y m d h mi s ms)

/-- `Date.prototype.toISOString` of an epoch-milliseconds value. -/
def toISOStringModel (t : Int) : String :=
  let p := utcComponents t
  isoString p.year p.month p.day p.hour p.minute p.second p.ms

/-! ### Parsing ISO date strings (`new Date(s)` on the ISO format)

ECMA-262's Date Time String Format: `YYYY-MM-DD` optionally followed by
`THH:mm`, `:ss`, `.sss` and a timezone designator.  Out-of-bounds fields make
the string an invalid instance of the format (`Invalid Date`); `HH = 24` is
legal only with zero minutes/seconds/milliseconds.  Offset designators other
than `Z` are outside this model; a missing designator is read as UTC, which
in the UTC container agrees with node's local-time interpretation of
date-only forms and date-time forms alike. -/

/-- Digit value of an ASCII digit character. -/
def dval (c : Char) : Nat := c.toNat - 48

/-- Read exactly two ASCII digits. -/
def read2 : List Char → Option (Nat × List Char)
  | a :: b :: rest =>
    if a.isDigit && b.isDigit then some (dval a * 10 + dval b, rest) else none
  | _ => none

/-- Read exactly three ASCII digits. -/
def read3 : List Char → Option (Nat × List Char)
  | a :: b :: c :: rest =>
    if a.isDigit && b.isDigit && c.isDigit then
      some (dval a * 100 + dval b * 10 + dval c, rest)
    else none
  | _ => none

/-- Read exactly four ASCII digits. -/
def read4 : List Char → Option (Nat × List Char)
  | a :: b :: c :: d :: rest =>
    if a.isDigit && b.isDigit && c.isDigit && d.isDigit then
      some (dval a * 1000 + dval b * 100 + dval c * 10 + dval d, rest)
    else none
  | _ => none

/-- Field bounds of a valid Date Time String (ECMA-262). -/
def validDate (y m d h mi s ms : Nat) : Bool :=
  1 ≤ m && m ≤ 12 && 1 ≤ d && d ≤ daysInMonth y m &&
  (h ≤ 23 || (h = 24 && mi = 0 && s = 0 && ms = 0)) && mi ≤ 59 && s ≤ 59

/-- Accepted trailing timezone designators (see the section comment). -/
def parseTZ : List Char → Bool
  | [] => true
  | ['Z'] => true
  | _ => false

/-- Time value of a structurally parsed ISO string, `none` when a field is
out of bounds. -/
def mkUTC (y m d h mi s ms : Nat) : Option Int :=
  if validDate y m d h mi s ms then some (epochMillisN y m d h mi s ms) else none

/-- `new Date(s).getTime()` on an ISO-format string (`none` = Invalid
Date). -/
def jsDateParseISO (l : List Char) : Option Int :=
  match read4 l with
  | none => none
  | some (y, r1) =>
    match r1 with
    | '-' :: r2 =>
      match read2 r2 with
      | none => none
      | some (m, r3) =>
        match r3 with
        | '-' :: r4 =>
          match read2 r4 with
          | none => none
          | some (d, r5) =>
            match r5 with
            | [] => mkUTC y m d 0 0 0 0
            | 'T' :: r6 =>
              match read2 r6 with
              | none => none
              | some (h, r7) =>
                match r7 with
                | ':' :: r8 =>
                  match read2 r8 with
                  | none => none
                  | some (mi, r9) =>
                    match r9 with
                    | ':' :: r10 =>
                      match read2 r10 with
                      | none => none
                      | some (s, r11) =>
                        match r11 with
                        | '.' :: r12 =>
                          match read3 r12 with
                          | none => none
                          | some (ms, r13) =>
                            if parseTZ r13 then mkUTC y m d h mi s ms else none
                        | _ => if parseTZ r11 then mkUTC y m d h mi s 0 else none
                    | _ => if parseTZ r9 then mkUTC y m d h mi 0 0 else none
                | _ => none
            | _ => none
        | _ => none
    | _ => none

/-- Does the pattern `\d{4}-\d{2}-\d{2}T\d{2}:` (flag `i`) match at the head
of the list? -/
def isoTestAt : List Char → Bool
  | a :: b :: c :: d :: e :: f :: g :: h :: i :: j :: k :: l :: m :: n :: _ =>
    a.isDigit && b.isDigit && c.isDigit && d.isDigit && e = '-' &&
    f.isDigit && g.isDigit && h = '-' && i.isDigit && j.isDigit &&
    (k = 'T' || k = 't') && l.isDigit && m.isDigit && n = ':'
  | _ => false

/-- `(/\d{4}-\d{2}-\d{2}T\d{2}:/i).test s`. -/
def isoTest : List Char → Bool
  | [] => false
  | c :: rest => isoTestAt (c :: rest) || isoTest rest

/-! ### The relative and absolute branches of parseDateToISO -/

/-- The unit alternation of the relative-date regex
`([0-9]+)\s*(س|ساعة|h|سا|د|دقيقة|m|ي|يوم|d|y|سنة)`, in source order (regex
alternation picks the first alternative that matches, so `س` shadows the
longer Arabic words that start with it, exactly as in the source). -/
def relUnits : List (List Char) :=
  ["س".data, "ساعة".data, ['h'], "سا".data, "د".data, "دقيقة".data,
   ['m'], "ي".data, "يوم".data, ['d'], ['y'], "سنة".data]

/-- First alternative (in order) matching at the head of `l`,
case-insensitively. -/
def firstAltCI : List (List Char) → List Char → Option (List Char)
  | [], _ => none
  | a :: rest, l => if ciHere a l then some a else firstAltCI rest l

/-- Leftmost match of the relative-date regex: the digit run and the unit
alternative that matched. -/
def relFind : List Char → Option (Nat × List Char)
  | [] => none
  | c :: rest =>
    if c.isDigit then
      let ds := (c :: rest).takeWhile Char.isDigit
      let r := ((c :: rest).dropWhile Char.isDigit).dropWhile isSpaceJS
      match firstAltCI relUnits r with
      | some u => some (digitsVal ds, u)
      | none => relFind rest
    else relFind rest

/-- `setFullYear(getFullYear() - n)` in UTC: same calendar fields, `n` years
earlier (with the usual setter normalization, e.g. Feb 29 of a leap year
rolls to Mar 1). -/
def yearsBack (t : Int) (n : Nat) : Int :=
  let p := utcComponents t
  epochMillisN (p.year - n) p.month p.day p.hour p.minute p.second p.ms

/-- Dispatch of the matched relative unit (the `includes` lists in
src/utils.js lines 207-210). -/
def relAdjust (now : Int) (n : Nat) (u : List Char) : Int :=
  if u ∈ ["س".data, "ساعة".data, ['h'], "سا".data] then now - n * 3600000
  else if u ∈ ["د".data, "دقيقة".data, ['m']] then now - n * 60000
  else if u ∈ ["ي".data, "يوم".data, ['d']] then now - n * 86400000
  else if u ∈ [['y'], "سنة".data] then yearsBack now n
  else now

/-- The letters matched by `\p{L}` in the scripts the sources use
(ASCII letters and the Arabic letter block). -/
def isLetterU (c : Char) : Bool :=
  c.isAlpha || (0x621 ≤ c.toNat && c.toNat ≤ 0x64a)

/-- The Arabic month-name table of src/utils.js (0-based months, including
the spelling variants present in the source). -/
def monthIndex (name : List Char) : Option Nat :=
  if name = "يناير".data then some 0
  else if name = "فبراير".data then some 1
  else if name = "مارس".data then some 2
  else if name = "أبريل".data then some 3
  else if name = "ابريل".data then some 3
  else if name = "أيار".data then some 4
  else if name = "مايو".data then some 4
  else if name = "يونيو".data then some 5
  else if name = "يوليو".data then some 6
  else if name = "أغسطس".data then some 7
  else if name = "اغسطس".data then some 7
  else if name = "سبتمبر".data then some 8
  else if name = "أكتوبر".data then some 9
  else if name = "اكتوبر".data then some 9
  else if name = "نوفمبر".data then some 10
  else if name = "ديسمبر".data then some 11
  else none

/-- `\d{1,2}` (greedy, Latin digits). -/
def takeDigits12 : List Char → Option (Nat × List Char)
  | [] => none
  | [a] => if a.isDigit then some (dval a, []) else none
  | a :: b :: rest =>
    if a.isDigit then
      if b.isDigit then some (dval a * 10 + dval b, rest)
      else some (dval a, b :: rest)
    else none

/-- Continuation of the absolute-date regex after the day number:
`\s+(\p{L}+)\s+الساعة\s+(\d{1,2}):(\d{2})\s*(ص|م)?`. -/
def absAfterDay (l : List Char) : Option (List Char × Nat × Nat × List Char) :=
  match l with
  | c :: rest =>
    if isSpaceJS c then
      let r1 := rest.dropWhile isSpaceJS
      let name := r1.takeWhile isLetterU
      if name.isEmpty then none
      else
        match r1.dropWhile isLetterU with
        | c2 :: rest2 =>
          if isSpaceJS c2 then
            let r2 := rest2.dropWhile isSpaceJS
            if litHere "الساعة".data r2 then
              match (r2.drop "الساعة".data.length) with
              | c3 :: rest3 =>
                if isSpaceJS c3 then
                  let r3 := rest3.dropWhile isSpaceJS
                  match takeDigits12 r3 with
                  | some (hh, ':' :: r4) =>
                    match r4 with
                    | a :: b :: r5 =>
                      if a.isDigit && b.isDigit then
                        let r6 := r5.dropWhile isSpaceJS
                        let period : List Char :=
                          match r6 with
                          | 'ص' :: _ => "ص".data
                          | 'م' :: _ => "م".data
                          | _ => []
                        some (name, hh, dval a * 10 + dval b, period)
                      else none
                    | _ => none
                  | _ => none
                else none
              | _ => none
            else none
          else none
        | _ => none
    else none
  | _ => none

/-- One attempt of the absolute-date regex at this position (day number
with greedy-then-backtracking width). -/
def absAt (l : List Char) : Option (Nat × List Char × Nat × Nat × List Char) :=
  match l with
  | a :: b :: rest =>
    if a.isDigit then
      if b.isDigit then
        match absAfterDay rest with
        | some (name, hh, mm, p) => some (dval a * 10 + dval b, name, hh, mm, p)
        | none =>
          match absAfterDay (b :: rest) with
          | some (name, hh, mm, p) => some (dval a, name, hh, mm, p)
          | none => none
      else
        match absAfterDay (b :: rest) with
        | some (name, hh, mm, p) => some (dval a, name, hh, mm, p)
        | none => none
    else none
  | _ => none

/-- Leftmost match of the absolute-date regex
`(\d{1,2})\s+(\p{L}+)\s+الساعة\s+(\d{1,2}):(\d{2})\s*(ص|م)?`. -/
def absFind : List Char → Option (Nat × List Char × Nat × Nat × List Char)
  | [] => none
  | c :: rest =>
    match absAt (c :: rest) with
    | some r => some r
    | none => absFind rest

/-- `setMonth` in UTC (0-based month argument, day-of-month preserved and
normalized). -/
def setMonthModel (t : Int) (M : Nat) : Int :=
  let p := utcComponents t
  epochMillisN p.year (M + 1) p.day p.hour p.minute p.second p.ms

/-- `setDate` in UTC. -/
def setDateModel (t : Int) (day : Nat) : Int :=
  let p := utcComponents t
  epochMillisN p.year p.month day p.hour p.minute p.second p.ms

/-- `setHours(h, mi, 0, 0)` in UTC. -/
def setHMModel (t : Int) (h mi : Nat) : Int :=
  let p := utcComponents t
  epochMillisN p.year p.month p.day h mi 0 0

/-- The absolute branch of `parseDateToISO`: `hour % 12`, `+12` on the
Arabic PM marker, then the three setter calls of the source in order. -/
def absAdjust (now : Int) (day M hh mm : Nat) (isPM : Bool) : Int :=
  let h := hh % 12 + (if isPM then 12 else 0)
  setHMModel (setDateModel (setMonthModel now M) day) h mm

/-- `parseDateToISO` (src/utils.js): ISO-looking inputs go through `new
Date`; otherwise the relative pattern, then the absolute Arabic pattern;
`none` when nothing matches.  `now` is the clock value `new Date()` reads. -/
def parseDateToISO (now : Int) (dateStr : String) : Option String :=
  if strFalsy dateStr then none
  else
    let s := trimJS (normalizeArabicDigitsL dateStr.data)
    if isoTest s then (jsDateParseISO s).map toISOStringModel
    else
      match relFind s with
      | some (n, u) => some (toISOStringModel (relAdjust now n u))
      | none =>
        match absFind s with
        | some (day, name, hh, mm, period) =>
          match monthIndex name with
          | some M => some (toISOStringModel (absAdjust now day M hh mm (period = "م".data)))
          | none => none
        | none => none

/-! ### The DOM model of one post

`Article` carries exactly the pieces of a `div[role="article"]` node the
extractors read. -/

/-- A `time` element: its `datetime` attribute (if any) and its text. -/
structure TimeNode where
  datetime : Option String
  text : String
deriving DecidableEq, Repr

/-- One `div[role="article"]` node as the extractors see it. -/
structure Article where
  innerText : String
  ariaLabels : List String
  spans : List String
  timeWithAttr : Option TimeNode
  aTime : Option TimeNode
  linkText : Option String
deriving DecidableEq, Repr

/-! ### Text cleaning (cleanText in src/scraper.js; extractPostText in
src/scraper-optimized.js) -/

/-- The alternation of `/عرض المزيد|See more/gi`, pre-lowercased. -/
def seeMorePats : List (List Char) := ["عرض المزيد".data, "see more".data]

/-- The action-bar alternation `/(أعجبني|تعليق|مشاركة|Like|Comment|Share)/i`,
pre-lowercased. -/
def actionPats : List (List Char) :=
  ["أعجبني".data, "تعليق".data, "مشاركة".data, "like".data, "comment".data,
   "share".data]

/-- Length of the first pattern of `pats` that matches (case-insensitively)
at the head of `l`. -/
def findCIPatLen (pats : List (List Char)) (l : List Char) : Option Nat :=
  match pats.find? (fun p => ciHere p l) with
  | some p => some p.length
  | none => none

/-- Global regex replace of an alternation of literals by `rep` (the fuel is
the input length; every step consumes at least one character). -/
def replacePats (pats : List (List Char)) (rep : List Char) :
    Nat → List Char → List Char
  | 0, l => l
  | _ + 1, [] => []
  | fuel + 1, c :: rest =>
    match findCIPatLen pats (c :: rest) with
    | some n => rep ++ replacePats pats rep fuel (List.drop (n - 1) rest)
    | none => c :: replacePats pats rep fuel rest

/-- `split(re)[0]`: the characters before the first match of the alternation,
`none` when it never matches. -/
def splitBefore (pats : List (List Char)) : List Char → Option (List Char)
  | [] => none
  | c :: rest =>
    if pats.any (fun p => ciHere p (c :: rest)) then some []
    else
      match splitBefore pats rest with
      | some pre => some (c :: pre)
      | none => none

/-- `cleanText` (src/scraper.js lines 346-352): drop "see more" affordances
(replaced by a space), keep the part before the first action-bar label
(falling back to the whole text when that part is empty, as `parts[0] || t`
does), collapse whitespace, trim. -/
def cleanText (t : String) : String :=
  if strFalsy t then ""
  else
    let l := replacePats seeMorePats [' '] (t.data.length + 1) t.data
    let kept :=
      match splitBefore actionPats l with
      | some pre => if pre.isEmpty then l else pre
      | none => l
    String.mk (trimJS (collapseWS kept))

/-- `extractPostText` (src/scraper-optimized.js lines 89-95): as `cleanText`
but the affordance labels are deleted rather than replaced by a space. -/
def extractPostText (a : Article) : String :=
  let l := replacePats seeMorePats [] (a.innerText.data.length + 1) a.innerText.data
  let kept :=
    match splitBefore actionPats l with
    | some pre => if pre.isEmpty then l else pre
    | none => l
  String.mk (trimJS (collapseWS kept))

/-! ### extractReactions (src/scraper.js lines 354-379) -/

/-- The character class `[0-9٠-٩,.]`. -/
def isNumClass (c : Char) : Bool :=
  isDigitEx c || c = ',' || c = '.'

/-- `toNumber` (src/scraper.js lines 334-344): try `number k`, then
`number m`, then strip commas/spaces and `parseInt`. -/
def numSuffixHere (suf : Char) (l : List Char) : Option (Nat × Nat) :=
  let ds := l.takeWhile Char.isDigit
  let r1 := l.dropWhile Char.isDigit
  let whole : Option (Nat × Nat) :=
    match r1 with
    | '.' :: r2 =>
      let fs := r2.takeWhile Char.isDigit
      if fs.isEmpty then none
      else
        match (r2.dropWhile Char.isDigit).dropWhile isSpaceJS with
        | c :: _ =>
          if c = suf then
            some (digitsVal ds * 10 ^ fs.length + digitsVal fs, fs.length)
          else none
        | [] => none
    | _ => none
  match whole with
  | some v => some v
  | none =>
    match r1.dropWhile isSpaceJS with
    | c :: _ => if c = suf then some (digitsVal ds, 0) else none
    | [] => none

/-- Leftmost match of `([0-9]+(\.[0-9]+)?)\s*suf`. -/
def matchNumSuffix (suf : Char) : List Char → Option (Nat × Nat)
  | [] => none
  | c :: rest =>
    if c.isDigit then
      match numSuffixHere suf (c :: rest) with
      | some v => some v
      | none => matchNumSuffix suf rest
    else matchNumSuffix suf rest

/-- `toNumber` itself. -/
def toNumber (raw : String) : Option Int :=
  if strFalsy raw then none
  else
    let s := lowerL (normalizeArabicDigitsL raw.data)
    match matchNumSuffix 'k' s with
    | some (mant, e) => some ((jsRoundDiv (mant * 1000) (10 ^ e) : Nat) : Int)
    | none =>
      match matchNumSuffix 'm' s with
      | some (mant, e) => some ((jsRoundDiv (mant * 1000000) (10 ^ e) : Nat) : Int)
      | none =>
        jsParseInt (s.filter (fun c => ¬ (c = ',' || isSpaceJS c)))

/-- The `[:：]?\s*` step: an optional (plain or fullwidth) colon followed by
spaces. -/
def dropColon (l : List Char) : List Char :=
  match l with
  | c :: rest => if c = ':' || c.toNat = 0xff1a then rest.dropWhile isSpaceJS else c :: rest
  | [] => []

/-- One attempt of `/كل\s*التفاعلات\s*[:：]?\s*([0-9٠-٩,.]+)/` at the head of
`l`; returns the captured numeric run. -/
def totalInteractionsAt (l : List Char) : Option (List Char) :=
  if litHere "كل".data l then
    let r1 := (l.drop "كل".data.length).dropWhile isSpaceJS
    if litHere "التفاعلات".data r1 then
      let r3 := dropColon ((r1.drop "التفاعلات".data.length).dropWhile isSpaceJS)
      let cap := r3.takeWhile isNumClass
      if cap.isEmpty then none else some cap
    else none
  else none

/-- Leftmost match of the "كل التفاعلات" capture. -/
def matchTotalInteractions : List Char → Option (List Char)
  | [] => none
  | c :: rest =>
    match totalInteractionsAt (c :: rest) with
    | some cap => some cap
    | none => matchTotalInteractions rest

/-- The capture of `/([0-9٠-٩,.]+\s*[kKmM]?)/` starting at a class
character. -/
def capNumKMAt (l : List Char) : List Char :=
  let run := l.takeWhile isNumClass
  let r1 := l.dropWhile isNumClass
  let sp := r1.takeWhile isSpaceJS
  match r1.dropWhile isSpaceJS with
  | c :: _ =>
    if c = 'k' || c = 'K' || c = 'm' || c = 'M' then run ++ sp ++ [c]
    else run ++ sp
  | [] => run ++ sp

/-- Leftmost capture of `/([0-9٠-٩,.]+\s*[kKmM]?)/`. -/
def capNumKM : List Char → Option (List Char)
  | [] => none
  | c :: rest =>
    if isNumClass c then some (capNumKMAt (c :: rest)) else capNumKM rest

/-- `/أعجبني|تفاع|react|like|likes/i.test lbl`. -/
def reactLabelTest (lbl : String) : Bool :=
  let l := lowerL lbl.data
  containsSub "أعجبني".data l || containsSub "تفاع".data l ||
  containsSub "react".data l || containsSub "like".data l ||
  containsSub "likes".data l

/-- Strategy 2 of `extractReactions`: scan the aria-labels, first label whose
captured number parses wins. -/
def scanReactLabels : List String → Option Int
  | [] => none
  | lbl :: rest =>
    if strFalsy lbl then scanReactLabels rest
    else if reactLabelTest lbl then
      match capNumKM lbl.data with
      | some cap =>
        match toNumber (String.mk cap) with
        | some v => some v
        | none => scanReactLabels rest
      | none => scanReactLabels rest
    else scanReactLabels rest

/-- The span filter test of strategy 3: the span shows a digit and the
article text concatenated with the span mentions a reaction word. -/
def spanTest (full sp : String) : Bool :=
  let hay := lowerL (full.data ++ ' ' :: sp.data)
  containsSub "أعجبني".data hay || containsSub "like".data hay ||
  containsSub "تفاع".data hay

/-- Strategy 3 of `extractReactions`. -/
def scanReactSpans (full : String) : List String → Option Int
  | [] => none
  | sp :: rest =>
    if sp.data.any isDigitEx && spanTest full sp then
      match capNumKM sp.data with
      | some cap =>
        match toNumber (String.mk cap) with
        | some v => some v
        | none => scanReactSpans full rest
      | none => scanReactSpans full rest
    else scanReactSpans full rest

/-- `extractReactions` (src/scraper.js): the "كل التفاعلات" capture (whose
parse failure is returned as-is), else aria-labels, else spans. -/
def extractReactions (a : Article) : Option Int :=
  match matchTotalInteractions a.innerText.data with
  | some cap => toNumber (String.mk cap)
  | none =>
    match scanReactLabels a.ariaLabels with
    | some v => some v
    | none => scanReactSpans a.innerText a.spans

/-! ### extractDate (src/scraper.js lines 381-396) -/

/-- The class `[A-Za-z؀-ۿ]` of the absolute-date patterns. -/
def isLetterFB (c : Char) : Bool :=
  c.isAlpha || (0x600 ≤ c.toNat && c.toNat ≤ 0x6ff)

/-- One attempt of the short relative alternative
`[0-9٠-٩]+\s*(unit)` at the head of `l`, returning the matched substring. -/
def relShortAt (units : List Char) (l : List Char) : Option (List Char) :=
  match l with
  | c :: _ =>
    if isDigitEx c then
      let ds := l.takeWhile isDigitEx
      let r1 := l.dropWhile isDigitEx
      let sp := r1.takeWhile isSpaceJS
      match r1.dropWhile isSpaceJS with
      | u :: _ => if u ∈ units then some (ds ++ sp ++ [u]) else none
      | [] => none
    else none
  | [] => none

/-- `\d{1,2}` returning the matched characters. -/
def takeDigits12Chars : List Char → Option (List Char × List Char)
  | [] => none
  | [a] => if a.isDigit then some ([a], []) else none
  | a :: b :: rest =>
    if a.isDigit then
      if b.isDigit then some ([a, b], rest) else some ([a], b :: rest)
    else none

/-- Continuation of the absolute alternative after the day digits:
`\s+[A-Za-z؀-ۿ]+\s+الساعة\s+\d{1,2}:\d{2}` and, when
`withTrailing` is set, the trailing `\s*[A-Za-z؀-ۿ]*` of the
scraper.js patterns; returns the matched characters. -/
def absFBAfterDay (withTrailing : Bool) (l : List Char) : Option (List Char) :=
  match l with
  | c :: rest =>
    if isSpaceJS c then
      let sp1 := c :: rest.takeWhile isSpaceJS
      let r1 := rest.dropWhile isSpaceJS
      let name := r1.takeWhile isLetterFB
      if name.isEmpty then none
      else
        match r1.dropWhile isLetterFB with
        | c2 :: rest2 =>
          if isSpaceJS c2 then
            let sp2 := c2 :: rest2.takeWhile isSpaceJS
            let r2 := rest2.dropWhile isSpaceJS
            if litHere "الساعة".data r2 then
              match r2.drop "الساعة".data.length with
              | c3 :: rest3 =>
                if isSpaceJS c3 then
                  let sp3 := c3 :: rest3.takeWhile isSpaceJS
                  let r3 := rest3.dropWhile isSpaceJS
                  match takeDigits12Chars r3 with
                  | some (hhChars, ':' :: r4) =>
                    match r4 with
                    | a :: b :: r5 =>
                      if a.isDigit && b.isDigit then
                        let core := sp1 ++ name ++ sp2 ++ "الساعة".data ++ sp3 ++
                          hhChars ++ ':' :: [a, b]
                        if withTrailing then
                          let sp4 := r5.takeWhile isSpaceJS
                          let tl := (r5.dropWhile isSpaceJS).takeWhile isLetterFB
                          some (core ++ sp4 ++ tl)
                        else some core
                      else none
                    | [_] => none
                    | [] => none
                  | _ => none
                else none
              | [] => none
            else none
          else none
        | [] => none
    else none
  | [] => none

/-- One attempt of the absolute alternative at this position (greedy then
backtracking day width). -/
def absFBAt (withTrailing : Bool) (l : List Char) : Option (List Char) :=
  match l with
  | a :: b :: rest =>
    if a.isDigit then
      if b.isDigit then
        match absFBAfterDay withTrailing rest with
        | some m => some (a :: b :: m)
        | none =>
          match absFBAfterDay withTrailing (b :: rest) with
          | some m => some (a :: m)
          | none => none
      else
        match absFBAfterDay withTrailing (b :: rest) with
        | some m => some (a :: m)
        | none => none
    else none
  | _ => none

/-- The link-text pattern of `extractDate`
(relative alternative first, then absolute with trailing letters). -/
def extractDateLinkPat : List Char → Option (List Char)
  | [] => none
  | c :: rest =>
    match relShortAt ['س', 'د', 'ي', 'h', 'd', 'm', 'y'] (c :: rest) with
    | some m => some m
    | none =>
      match absFBAt true (c :: rest) with
      | some m => some m
      | none => extractDateLinkPat rest

/-- The leading-text-window pattern of `extractDate`
(absolute alternative first, then relative). -/
def extractDateTextPat : List Char → Option (List Char)
  | [] => none
  | c :: rest =>
    match absFBAt true (c :: rest) with
    | some m => some m
    | none =>
      match relShortAt ['س', 'د', 'ي', 'h', 'd', 'm', 'y'] (c :: rest) with
      | some m => some m
      | none => extractDateTextPat rest

/-- The two pattern fallbacks of `extractDate`: the first link's text, then
the first 300 characters of the article text. -/
def extractDateFallback (a : Article) : Option String :=
  let fromText : Option String :=
    match extractDateTextPat (a.innerText.data.take 300) with
    | some m => some (String.mk m)
    | none => none
  match a.linkText with
  | some txt =>
    match extractDateLinkPat txt.data with
    | some m => some (String.mk m)
    | none => fromText
  | none => fromText

/-- `extractDate` (src/scraper.js): a `time` element's attribute or text,
else the pattern fallbacks. -/
def extractDate (a : Article) : Option String :=
  match (match a.timeWithAttr with | some n => some n | none => a.aTime) with
  | some node =>
    let dt :=
      match node.datetime with
      | some v => if strFalsy v then node.text else v
      | none => node.text
    if strFalsy dt then extractDateFallback a
    else some (String.mk (trimJS dt.data))
  | none => extractDateFallback a

/-! ### The post pipeline of src/scraper.js (lines 398-424) -/

/-- A raw extracted post. -/
structure RawPost where
  text : String
  reactions : Option Int
  date : Option String
deriving DecidableEq, Repr

/-- The map step of the pipeline. -/
def mkRawPost (a : Article) : RawPost :=
  { text := cleanText a.innerText
    reactions := extractReactions a
    date := extractDate a }

/-- Mapped and filtered posts (`p.text && p.text.length > 0`). -/
def part000Raw (articles : List Article) : List RawPost :=
  (articles.map mkRawPost).filter (fun p => 0 < p.text.length)

/-- The dedup loop (src/scraper.js lines 408-416): a `Set` of seen cleaned
texts, first occurrence kept. -/
def dedupGo : List RawPost → List String → List RawPost
  | [], _ => []
  | p :: rest, seen =>
    if p.text ∈ seen then dedupGo rest seen
    else p :: dedupGo rest (p.text :: seen)

/-- The deduplicated post list returned from the page context. -/
def part000Unique (articles : List Article) : List RawPost :=
  dedupGo (part000Raw articles) []

/-- A post after the dateISO enrichment (src/scraper.js lines 421-424). -/
structure EnrichedPost where
  text : String
  reactions : Option Int
  date : Option String
  dateISO : Option String
deriving DecidableEq, Repr

/-- `posts.slice(0, POSTS_TARGET).map(p => ({...p, dateISO: ...}))`. -/
def enrichPost (now : Int) (p : RawPost) : EnrichedPost :=
  { text := p.text, reactions := p.reactions, date := p.date
    dateISO := p.date.bind (fun d => parseDateToISO now d) }

/-- The final post list of a scraper.js run. -/
def part000Posts (now : Int) (articles : List Article) (target : Nat) :
    List EnrichedPost :=
  ((part000Unique articles).take target).map (enrichPost now)

/-! ### extractEngagement (src/scraper-optimized.js lines 98-156) -/

/-- The three engagement metrics. -/
inductive Metric where
  | reactions
  | comments
  | shares
deriving DecidableEq, Repr

/-- One attempt of the split separator `/كل\s*التفاعلات:\s*/i` at the head of
`l`; returns the remainder after the separator. -/
def splitSepHere (l : List Char) : Option (List Char) :=
  if litHere "كل".data l then
    let r1 := (l.drop "كل".data.length).dropWhile isSpaceJS
    if litHere "التفاعلات:".data r1 then
      some ((r1.drop "التفاعلات:".data.length).dropWhile isSpaceJS)
    else none
  else none

/-- Remainder after the first separator occurrence. -/
def afterFirstSep : List Char → Option (List Char)
  | [] => none
  | c :: rest =>
    match splitSepHere (c :: rest) with
    | some r => some r
    | none => afterFirstSep rest

/-- Characters before the next separator occurrence. -/
def beforeNextSep : List Char → List Char
  | [] => []
  | c :: rest =>
    match splitSepHere (c :: rest) with
    | some _ => []
    | none => c :: beforeNextSep rest

/-- `normalizedText.split(/كل\s*التفاعلات:\s*/i)[1]`. -/
def splitAfterLabel (l : List Char) : Option (List Char) :=
  (afterFirstSep l).map beforeNextSep

/-- All matches of `/\b(\d+)\b/g`: maximal Latin digit runs flanked by
non-word characters; `prevWord` tells whether the previous character was a
word character, the fuel is the input length. -/
def wbNumbersAux : Nat → Bool → List Char → List Nat
  | 0, _, _ => []
  | fuel + 1, prevWord, l =>
    match l with
    | [] => []
    | c :: rest =>
      if c.isDigit && !prevWord then
        let run := (c :: rest).takeWhile Char.isDigit
        let r := (c :: rest).dropWhile Char.isDigit
        let ok := match r with | [] => true | d :: _ => !isWordCharJS d
        (if ok then [digitsVal run] else []) ++ wbNumbersAux fuel true r
      else wbNumbersAux fuel (isWordCharJS c) rest

/-- `afterLabel.match(/\b(\d+)\b/g)` as a list of parsed numbers. -/
def wbNumbers (l : List Char) : List Nat :=
  wbNumbersAux (l.length + 1) false l

/-- The metric synonym alternations of strategy 2 (lowercased). -/
def metricPats : Metric → List (List Char)
  | .reactions => ["اعجاب".data, "like".data, "تفاعل".data, "react".data]
  | .comments => ["تعليق".data, "comment".data, "رد".data]
  | .shares => ["مشاركة".data, "share".data]

/-- First digit run of a label, `label.match(/(\d+)/)`. -/
def firstDigitRun : List Char → Option Nat
  | [] => none
  | c :: rest =>
    if c.isDigit then some (digitsVal ((c :: rest).takeWhile Char.isDigit))
    else firstDigitRun rest

/-- Strategy 2 of `extractEngagement`: scan aria-labels for the metric's
synonyms and take the first embedded number. -/
def scanButtons (metric : Metric) : List String → Option Nat
  | [] => none
  | lbl :: rest =>
    let label := normalizeArabicDigitsL (lowerL lbl.data)
    if (metricPats metric).any (fun p => containsSub p label) then
      match firstDigitRun label with
      | some n => some n
      | none => scanButtons metric rest
    else scanButtons metric rest

/-- `extractEngagement` (src/scraper-optimized.js): the "كل التفاعلات"
number block (4+ numbers: reactions/emoji/comments/shares; 2-3: reactions
and comments, shares 0; 1: reactions only), else aria-labels, else the
literal fallback `return 0`. -/
def extractEngagement (a : Article) (metric : Metric) : Nat :=
  let strat1 : Option Nat :=
    if containsSub "كل التفاعلات:".data a.innerText.data then
      match splitAfterLabel (normalizeArabicDigitsL a.innerText.data) with
      | some afterLabel =>
        if afterLabel.isEmpty then none
        else
          let numbers := wbNumbers afterLabel
          if 4 ≤ numbers.length then
            match metric with
            | .reactions => some (numbers.getD 0 0)
            | .comments => some (numbers.getD 2 0)
            | .shares => some (numbers.getD 3 0)
          else if 2 ≤ numbers.length then
            match metric with
            | .reactions => some (numbers.getD 0 0)
            | .comments => some (numbers.getD 1 0)
            | .shares => some 0
          else if numbers.length = 1 then
            match metric with
            | .reactions => some (numbers.getD 0 0)
            | _ => none
          else none
      | none => none
    else none
  match strat1 with
  | some v => v
  | none =>
    match scanButtons metric a.ariaLabels with
    | some v => v
    | none => 0

/-- `extractDate` of src/scraper-optimized.js (lines 159-166): a
`time[datetime]` attribute, else one regex over the whole text (absolute
alternative, then Arabic relative units `س/د/ي`, then Latin `h/d`). -/
def optDatePat : List Char → Option (List Char)
  | [] => none
  | c :: rest =>
    match absFBAt false (c :: rest) with
    | some m => some m
    | none =>
      match relShortAt ['س', 'د', 'ي'] (c :: rest) with
      | some m => some m
      | none =>
        match relShortAt ['h', 'd'] (c :: rest) with
        | some m => some m
        | none => optDatePat rest

/-- The optimized scraper's date extraction. -/
def extractDateOptimized (a : Article) : Option String :=
  match a.timeWithAttr with
  | some node => some (node.datetime.getD "")
  | none =>
    match optDatePat a.innerText.data with
    | some m => some (String.mk m)
    | none => none

/-! ### The post pipeline of src/scraper-optimized.js (lines 169-207) -/

/-- One record of the optimized scraper.  All engagement fields are plain
numbers in the source (strategy failures fall back to the literal 0), hence
`Nat` here. -/
structure OptPost where
  id : Nat
  text : String
  reactions : Nat
  comments : Nat
  shares : Nat
  total_engagement : Nat
  date : Option String
deriving DecidableEq, Repr

/-- The map step (lines 169-186): `text || 'N/A'`, the three metrics, their
sum, `date || null`. -/
def mkOptPost (idx : Nat) (a : Article) : OptPost :=
  let t := extractPostText a
  let r := extractEngagement a .reactions
  let c := extractEngagement a .comments
  let s := extractEngagement a .shares
  { id := idx + 1
    text := if strFalsy t then "N/A" else t
    reactions := r
    comments := c
    shares := s
    total_engagement := r + c + s
    date :=
      match extractDateOptimized a with
      | some d => if strFalsy d then none else some d
      | none => none }

/-- Mapped and filtered posts
(`p.text && p.text !== 'N/A' && p.text.length > 5`). -/
def optPostsAll (articles : List Article) : List OptPost :=
  (articles.enum.map (fun p => mkOptPost p.1 p.2)).filter
    (fun p => ¬ strFalsy p.text && p.text ≠ "N/A" && 5 < p.text.length)

/-- `posts.slice(0, POSTS_TARGET)`, the list the optimized result carries. -/
def optPostsFinal (articles : List Article) (target : Nat) : List OptPost :=
  (optPostsAll articles).take target

/-- The summary block (lines 190-199). -/
structure OptSummary where
  total_posts : Nat
  total_reactions : Nat
  total_comments : Nat
  total_shares : Nat
  avg_reactions : Nat
  avg_comments : Nat
  avg_shares : Nat
  best_post : Option OptPost
deriving DecidableEq, Repr

/-- `posts.reduce((best, p) => p.total_engagement > best.total_engagement ?
p : best)`: first maximum wins. -/
def bestPost : List OptPost → Option OptPost
  | [] => none
  | h :: t =>
    some (t.foldl
      (fun best p => if best.total_engagement < p.total_engagement then p else best) h)

/-- Build the summary. -/
def mkSummary (posts : List OptPost) : OptSummary :=
  let tr := (posts.map (·.reactions)).sum
  let tc := (posts.map (·.comments)).sum
  let ts := (posts.map (·.shares)).sum
  { total_posts := posts.length
    total_reactions := tr
    total_comments := tc
    total_shares := ts
    avg_reactions := if 0 < posts.length then jsRoundDiv tr posts.length else 0
    avg_comments := if 0 < posts.length then jsRoundDiv tc posts.length else 0
    avg_shares := if 0 < posts.length then jsRoundDiv ts posts.length else 0
    best_post := bestPost posts }

/-! ### The two exported scrape operations

Everything the page/browser collaborator supplies during a run is collected
in `ScrapeEnv`; the externally visible effects that precede extraction are
recorded as an action trace, so that "fails before any login or navigation"
is the statement "the trace is empty". -/

/-- Collaborator-supplied data of one run. -/
structure ScrapeEnv where
  pageTitle : Option String
  followers : Option Int
  likes : Option Int
  articles : List Article
  counts : Nat → Nat
  now : Int

/-- External actions a run performs. -/
inductive ScrapeAction where
  | login
  | navigate
  | scrollLoop (iterations : Nat)
  | extract
deriving DecidableEq, Repr

/-- Options of `scrapeFacebookPage` (src/scraper.js lines 14-24). -/
structure ScrapeOptions where
  FB_PAGE_URL : Option String
  FOLLOWERS_XPATH : Option String
  LIKES_XPATH : Option String
  POSTS_TARGET : Nat
  SCROLL_DELAY_MS : Nat
  SCROLL_STALL_LIMIT : Nat
  SCROLL_MAX_LOOPS : Nat
  SAVE_TO_FILE : Bool

/-- Options of `scrapeFacebookPageOptimized` (src/scraper-optimized.js
lines 12-17). -/
structure OptOptions where
  FB_PAGE_URL : Option String
  POSTS_TARGET : Nat
  SCROLL_DELAY_MS : Nat
  SAVE_TO_FILE : Bool

/-- `!FB_PAGE_URL`: absent or empty. -/
def urlFalsy : Option String → Bool
  | none => true
  | some s => strFalsy s

/-- The `meta` block of a scraper.js result (lines 434-437). -/
structure ScrapeMeta where
  postsTarget : Nat
  loadedArticles : Nat
deriving DecidableEq, Repr

/-- A scraper.js result (lines 427-438). -/
structure Part000Result where
  page : Option String
  followers : Option Int
  likes : Option Int
  posts : List EnrichedPost
  scrapedAt : String
  url : String
  meta : ScrapeMeta
deriving DecidableEq, Repr

/-- `sanitizeText` (src/utils.js): drop zero-width spaces, collapse
whitespace, trim. -/
def sanitizeText (s : String) : String :=
  String.mk (trimJS (collapseWS (s.data.filter (fun c => c.toNat ≠ 0x200b))))

/-- `scrapeFacebookPage` (src/scraper.js): the URL guard throws before any
external action; otherwise the run logs in, navigates, drives the scroll
loop and extracts. -/
def scrapeFacebookPage (opts : ScrapeOptions) (env : ScrapeEnv) :
    Except String Part000Result × List ScrapeAction :=
  if urlFalsy opts.FB_PAGE_URL then (.error "FB_PAGE_URL is required", [])
  else
    let run := loadArticlesRun env.counts opts.POSTS_TARGET
      opts.SCROLL_STALL_LIMIT opts.SCROLL_MAX_LOOPS
    let posts := part000Unique env.articles
    let enriched := (posts.take opts.POSTS_TARGET).map (enrichPost env.now)
    (.ok { page := env.pageTitle.map sanitizeText
           followers := env.followers
           likes := env.likes
           posts := enriched
           scrapedAt := toISOStringModel env.now
           url := opts.FB_PAGE_URL.getD ""
           meta := { postsTarget := opts.POSTS_TARGET, loadedArticles := posts.length } },
     [.login, .navigate, .scrollLoop run.1, .extract])

/-- An optimized-scraper result (lines 201-209). -/
structure OptResult where
  pageName : Option String
  url : String
  posts : List OptPost
  summary : OptSummary
  scrapedAt : String
deriving DecidableEq, Repr

/-- `scrapeFacebookPageOptimized` (src/scraper-optimized.js). -/
def scrapeFacebookPageOptimized (opts : OptOptions) (env : ScrapeEnv) :
    Except String OptResult × List ScrapeAction :=
  if urlFalsy opts.FB_PAGE_URL then (.error "FB_PAGE_URL is required", [])
  else
    let run := optimizedScrollRun env.counts opts.POSTS_TARGET
    let posts := optPostsAll env.articles
    (.ok { pageName := env.pageTitle
           url := opts.FB_PAGE_URL.getD ""
           posts := posts.take opts.POSTS_TARGET
           summary := mkSummary posts
           scrapedAt := toISOStringModel env.now },
     [.login, .navigate, .scrollLoop run.1, .extract])

/-! ### Lemmas about the dedup loop -/

theorem dedupGo_sublist : ∀ (l : List RawPost) (seen : List String), List.Sublist (dedupGo l seen) l
  | [], _ => by simp [dedupGo]
  | p :: rest, seen => by
    by_cases h : p.text ∈ seen
    · rw [dedupGo, if_pos h]
      exact (dedupGo_sublist rest seen).trans (List.sublist_cons_self p rest)
    · rw [dedupGo, if_neg h]
      exact (dedupGo_sublist rest (p.text :: seen)).cons₂ p

theorem dedupGo_not_seen : ∀ (l : List RawPost) (seen : List String),
    ∀ p ∈ dedupGo l seen, p.text ∉ seen
  | [], _ => by simp [dedupGo]
  | q :: rest, seen => by
    intro p hp
    by_cases h : q.text ∈ seen
    · rw [dedupGo, if_pos h] at hp
      exact dedupGo_not_seen rest seen p hp
    · rw [dedupGo, if_neg h] at hp
      rcases List.mem_cons.1 hp with rfl | hp
      · exact h
      · have h2 := dedupGo_not_seen rest (q.text :: seen) p hp
        exact fun hc => h2 (List.mem_cons_of_mem _ hc)

theorem dedupGo_pairwise : ∀ (l : List RawPost) (seen : List String),
    (dedupGo l seen).Pairwise (fun a b => a.text ≠ b.text)
  | [], _ => by simp [dedupGo]
  | q :: rest, seen => by
    by_cases h : q.text ∈ seen
    · rw [dedupGo, if_pos h]; exact dedupGo_pairwise rest seen
    · rw [dedupGo, if_neg h]
      refine List.Pairwise.cons ?_ (dedupGo_pairwise rest (q.text :: seen))
      intro b hb hqb
      exact dedupGo_not_seen rest (q.text :: seen) b hb
        (by rw [← hqb]; exact List.mem_cons_self _ _)

theorem dedupGo_find : ∀ (l : List RawPost) (seen : List String),
    ∀ p ∈ dedupGo l seen, l.find? (fun q => q.text == p.text) = some p
  | [], _ => by simp [dedupGo]
  | q :: rest, seen => by
    intro p hp
    by_cases h : q.text ∈ seen
    · rw [dedupGo, if_pos h] at hp
      have hne : (q.text == p.text) = false := by
        simp only [beq_eq_false_iff_ne, ne_eq]
        exact fun he => (dedupGo_not_seen rest seen p hp) (he ▸ h)
      simp only [List.find?, hne]
      exact dedupGo_find rest seen p hp
    · rw [dedupGo, if_neg h] at hp
      rcases List.mem_cons.1 hp with rfl | hp
      · simp [List.find?]
      · have hne : (q.text == p.text) = false := by
          simp only [beq_eq_false_iff_ne, ne_eq]
          exact fun he => (dedupGo_not_seen rest (q.text :: seen) p hp)
            (by rw [← he]; exact List.mem_cons_self _ _)
        simp only [List.find?, hne]
        exact dedupGo_find rest (q.text :: seen) p hp

theorem dedupGo_covers : ∀ (l : List RawPost) (seen : List String),
    ∀ p ∈ l, p.text ∈ seen ∨ ∃ q ∈ dedupGo l seen, q.text = p.text
  | [], _ => by simp
  | a :: rest, seen => by
    intro p hp
    by_cases h : a.text ∈ seen
    · rcases List.mem_cons.1 hp with rfl | hp
      · exact Or.inl h
      · rcases dedupGo_covers rest seen p hp with hs | ⟨q, hq, he⟩
        · exact Or.inl hs
        · exact Or.inr ⟨q, by rw [dedupGo, if_pos h]; exact hq, he⟩
    · rcases List.mem_cons.1 hp with rfl | hp
      · exact Or.inr ⟨p, by rw [dedupGo, if_neg h]; exact List.mem_cons_self _ _, rfl⟩
      · rcases dedupGo_covers rest (a.text :: seen) p hp with hs | ⟨q, hq, he⟩
        · rcases List.mem_cons.1 hs with he2 | hs2
          · exact Or.inr ⟨a, by rw [dedupGo, if_neg h]; exact List.mem_cons_self _ _, he2.symm⟩
          · exact Or.inl hs2
        · exact Or.inr ⟨q, by rw [dedupGo, if_neg h]; exact List.mem_cons_of_mem _ hq, he⟩

/-! ### Claim theorems -/

/-- C4.  For every input article list, the scraper.js output record list has
pairwise distinct cleaned texts; its text sequence is a subsequence of the
filtered input's text sequence (first-seen order); every surviving record is
the first occurrence of its cleaned-text key; every dropped item has a
surviving record with the same key; and the list is truncated to at most the
requested target count. -/
theorem dedup_first_seen_order (now : Int) (articles : List Article) (target : Nat) :
    (part000Posts now articles target).Pairwise (fun a b => a.text ≠ b.text) ∧
    List.Sublist ((part000Posts now articles target).map (·.text))
      ((part000Raw articles).map (·.text)) ∧
    (∀ p ∈ part000Unique articles,
      (part000Raw articles).find? (fun q => q.text == p.text) = some p) ∧
    (∀ p ∈ part000Raw articles, ∃ q ∈ part000Unique articles, q.text = p.text) ∧
    (part000Posts now articles target).length ≤ target := by
  refine ⟨?_, ?_, ?_, ?_, ?_⟩
  · rw [part000Posts, List.pairwise_map]
    exact ((dedupGo_pairwise (part000Raw articles) []).sublist
      (List.take_sublist _ _)).imp (fun h => h)
  · rw [part000Posts]
    have h1 : ((((part000Unique articles).take target).map (enrichPost now)).map (·.text)) =
        (((part000Unique articles).map (·.text)).take target) := by
      rw [List.map_map, ← List.map_take]
      rfl
    rw [h1]
    exact (List.take_sublist _ _).trans
      ((dedupGo_sublist (part000Raw articles) []).map (·.text))
  · exact dedupGo_find (part000Raw articles) []
  · intro p hp
    rcases dedupGo_covers (part000Raw articles) [] p hp with hs | h
    · simp at hs
    · exact h
  · rw [part000Posts, List.length_map, List.length_take]
    omega

/-- C8.  No record with empty cleaned text is ever emitted: every post of a
scraper.js run has nonempty text (its filter keeps `p.text.length > 0`) and
every post of an optimized run has nonempty text (its filter keeps
`p.text.length > 5`). -/
theorem no_empty_text_records (now : Int) (articles : List Article) (target : Nat) :
    (∀ p ∈ part000Posts now articles target, 0 < p.text.length) ∧
    (∀ p ∈ optPostsFinal articles target, 0 < p.text.length) := by
  constructor
  · intro p hp
    obtain ⟨q, hq, rfl⟩ := List.mem_map.1 hp
    have hq2 : q ∈ part000Unique articles := List.mem_of_mem_take hq
    have hq3 : q ∈ part000Raw articles :=
      (dedupGo_sublist (part000Raw articles) []).subset hq2
    have hq4 := (List.mem_filter.1 hq3).2
    simpa [enrichPost] using hq4
  · intro p hp
    have h1 : p ∈ optPostsAll articles := List.mem_of_mem_take hp
    have h2 := (List.mem_filter.1 h1).2
    simp only [Bool.and_eq_true, decide_eq_true_eq] at h2
    omega

/-- C10.  Every record emitted by the optimized scraper satisfies
`total_engagement = reactions + comments + shares`; the three engagement
fields are natural numbers by construction (every extraction path yields a
parsed digit run or the literal 0). -/
theorem total_engagement_sum (articles : List Article) (target : Nat) (p : OptPost)
    (hp : p ∈ optPostsFinal articles target) :
    p.total_engagement = p.reactions + p.comments + p.shares := by
  have h1 : p ∈ optPostsAll articles := List.mem_of_mem_take hp
  have h2 := (List.mem_filter.1 h1).1
  obtain ⟨x, _, rfl⟩ := List.mem_map.1 h2
  rfl

/-- C9.  With an absent or empty `FB_PAGE_URL`, both scrape operations fail
with "FB_PAGE_URL is required" and their action trace is empty: no login,
navigation or scroll is performed. -/
theorem fb_page_url_guard (opts : ScrapeOptions) (optsO : OptOptions) (env : ScrapeEnv)
    (h1 : urlFalsy opts.FB_PAGE_URL = true) (h2 : urlFalsy optsO.FB_PAGE_URL = true) :
    scrapeFacebookPage opts env = (.error "FB_PAGE_URL is required", []) ∧
    scrapeFacebookPageOptimized optsO env = (.error "FB_PAGE_URL is required", []) := by
  constructor
  · rw [scrapeFacebookPage, if_pos h1]
  · rw [scrapeFacebookPageOptimized, if_pos h2]

/-- C5.  Along the state trace of either scroll loop, an iteration whose
observed count exceeds the last recorded count resets the stall counter to 0,
and an iteration whose count does not exceed it increments the stall counter
by exactly 1. -/
theorem stall_counter_invariant (counts : Nat → Nat) (target i : Nat)
    (h : counts i < target) :
    ((loopTrace loadStep counts target i).last < counts i →
      (loopTrace loadStep counts target (i + 1)).stalls = 0) ∧
    (counts i ≤ (loopTrace loadStep counts target i).last →
      (loopTrace loadStep counts target (i + 1)).stalls =
        (loopTrace loadStep counts target i).stalls + 1) ∧
    ((loopTrace optStep counts target i).last < counts i →
      (loopTrace optStep counts target (i + 1)).stalls = 0) ∧
    (counts i ≤ (loopTrace optStep counts target i).last →
      (loopTrace optStep counts target (i + 1)).stalls =
        (loopTrace optStep counts target i).stalls + 1) := by
  have hng : ¬ target ≤ counts i := Nat.not_le.mpr h
  refine ⟨?_, ?_, ?_, ?_⟩ <;> intro hc
  · simp [loopTrace, hng, loadStep, Nat.not_le.mpr hc]
  · simp [loopTrace, hng, loadStep, hc]
  · simp [loopTrace, hng, optStep, Nat.not_le.mpr hc]
  · simp [loopTrace, hng, optStep, hc]

/-- C2 (behaviour at the spec's test values).  `parseCount` returns 2 for
"1.5k" — the `\b` in `/\bk\b/` cannot match between the digit and the `k`,
so no magnitude factor is applied and `round(1.5)` is returned — and 2 for
"2,300" — the numeric token stops at the comma.  Digit-free input does give
`none`. -/
theorem parseCount_values :
    parseCount "1.5k" = some 2 ∧ parseCount "2,300" = some 2 ∧
    parseCount "followers" = none := by
  refine ⟨by decide, by decide, by decide⟩

/-! ### Witness fixtures -/

/-- A plain article with no engagement markers. -/
def wArticleA : Article :=
  { innerText := "hello world of tests", ariaLabels := [], spans := []
    timeWithAttr := none, aTime := none, linkText := none }

/-- A second article with different text. -/
def wArticleB : Article :=
  { innerText := "another clean post body", ariaLabels := [], spans := []
    timeWithAttr := none, aTime := none, linkText := none }

/-- An article carrying a "كل التفاعلات" block. -/
def wArticleC : Article :=
  { innerText := "launch update كل التفاعلات: 571 571 2 8", ariaLabels := []
    spans := [], timeWithAttr := none, aTime := none, linkText := none }

/-- An empty collaborator environment. -/
def wEnv : ScrapeEnv :=
  { pageTitle := none, followers := none, likes := none, articles := []
    counts := fun _ => 0, now := 0 }

/-- A count sequence that grows once and then stalls. -/
def wCounts : Nat → Nat := fun n => if n = 0 then 2 else 1

theorem dedup_first_seen_order_witness :
    (part000Raw [wArticleA, wArticleA, wArticleB]).find?
      (fun q => q.text == "hello world of tests") =
      some { text := "hello world of tests", reactions := none, date := none } :=
  (dedup_first_seen_order 0 [wArticleA, wArticleA, wArticleB] 5).2.2.1
    { text := "hello world of tests", reactions := none, date := none } (by decide)

theorem no_empty_text_records_witness :
    0 < ({ text := "hello world of tests", reactions := none, date := none
           dateISO := none } : EnrichedPost).text.length :=
  (no_empty_text_records 0 [wArticleA] 5).1 _ (by decide)

theorem total_engagement_sum_witness :
    (mkOptPost 0 wArticleC).total_engagement =
      (mkOptPost 0 wArticleC).reactions + (mkOptPost 0 wArticleC).comments +
        (mkOptPost 0 wArticleC).shares :=
  total_engagement_sum [wArticleC] 10 _ (by decide)

theorem fb_page_url_guard_witness :
    scrapeFacebookPage
      { FB_PAGE_URL := some "", FOLLOWERS_XPATH := none, LIKES_XPATH := none
        POSTS_TARGET := 100, SCROLL_DELAY_MS := 2000, SCROLL_STALL_LIMIT := 10
        SCROLL_MAX_LOOPS := 300, SAVE_TO_FILE := true } wEnv =
      (.error "FB_PAGE_URL is required", []) ∧
    scrapeFacebookPageOptimized
      { FB_PAGE_URL := none, POSTS_TARGET := 10, SCROLL_DELAY_MS := 3000
        SAVE_TO_FILE := false } wEnv =
      (.error "FB_PAGE_URL is required", []) :=
  fb_page_url_guard _ _ _ rfl rfl

theorem stall_counter_invariant_witness :
    (loopTrace loadStep wCounts 5 2).stalls = (loopTrace loadStep wCounts 5 1).stalls + 1 :=
  (stall_counter_invariant wCounts 5 1 (by decide)).2.1 (by decide)

/-! ### Termination lemmas for the scroll loops -/

theorem loadStep_spec (st : ScrollState) (c : Nat) (h : c ≤ st.last) :
    (loadStep st c).stalls = st.stalls + 1 ∧ c ≤ (loadStep st c).last ∧
      (loadStep st c).last ≤ st.last := by
  simp [loadStep, h]

theorem optStep_spec (st : ScrollState) (c : Nat) (h : c ≤ st.last) :
    (optStep st c).stalls = st.stalls + 1 ∧ c ≤ (optStep st c).last ∧
      (optStep st c).last ≤ st.last := by
  simp [optStep, h]

theorem loadStep_grow (st : ScrollState) (c : Nat) (h : st.last < c) :
    loadStep st c = ⟨c, 0⟩ := by
  simp [loadStep, Nat.not_le.mpr h]

theorem optStep_grow (st : ScrollState) (c : Nat) (h : st.last < c) :
    optStep st c = ⟨c, 0⟩ := by
  simp [optStep, Nat.not_le.mpr h]

/-- A run whose every remaining observation stalls increments the counter
each iteration and stops with cause `stall` once it reaches the limit. -/
theorem runLoop_stall (step : ScrollState → Nat → ScrollState)
    (hstep : ∀ st c, c ≤ st.last →
      (step st c).stalls = st.stalls + 1 ∧ c ≤ (step st c).last ∧ (step st c).last ≤ st.last)
    (counts : Nat → Nat) (target stallLimit : Nat)
    (hmono : ∀ i, counts (i + 1) ≤ counts i) :
    ∀ (fuel i : Nat) (st : ScrollState), counts i ≤ st.last → st.last < target →
      max 1 (stallLimit - st.stalls) ≤ fuel →
      runLoop step counts target stallLimit fuel i st =
        (i + max 1 (stallLimit - st.stalls), .stall) := by
  intro fuel
  induction fuel with
  | zero => intro i st _ _ hf; omega
  | succ fuel ih =>
    intro i st hle hlt hf
    have hng : ¬ target ≤ counts i := by omega
    obtain ⟨h1, h2, h3⟩ := hstep st (counts i) hle
    rw [runLoop, if_neg hng]
    by_cases hb : stallLimit ≤ (step st (counts i)).stalls
    · rw [if_pos hb]
      have he : i + max 1 (stallLimit - st.stalls) = i + 1 := by omega
      rw [he]
    · rw [if_neg hb]
      have hf2 : max 1 (stallLimit - (step st (counts i)).stalls) ≤ fuel := by
        rw [h1]; omega
      have ihr := ih (i + 1) (step st (counts i)) (le_trans (hmono i) h2)
        (lt_of_le_of_lt h3 hlt) hf2
      rw [ihr, h1]
      have he : i + 1 + max 1 (stallLimit - (st.stalls + 1)) =
          i + max 1 (stallLimit - st.stalls) := by omega
      rw [he]

/-- If the observed count never grows, either loop stops before the
iteration ceiling: within `stallLimit + 1` iterations and never with cause
`budget`. -/
theorem scroll_terminates (step : ScrollState → Nat → ScrollState)
    (hstep : ∀ st c, c ≤ st.last →
      (step st c).stalls = st.stalls + 1 ∧ c ≤ (step st c).last ∧ (step st c).last ≤ st.last)
    (hgrow : ∀ st c, st.last < c → step st c = ⟨c, 0⟩)
    (counts : Nat → Nat) (target stallLimit maxLoops : Nat)
    (hmono : ∀ i, counts (i + 1) ≤ counts i) (hlt : stallLimit < maxLoops) :
    (runLoop step counts target stallLimit maxLoops 0 ⟨0, 0⟩).1 ≤ stallLimit + 1 ∧
    (runLoop step counts target stallLimit maxLoops 0 ⟨0, 0⟩).2 ≠ .budget := by
  obtain ⟨m, rfl⟩ : ∃ m, maxLoops = m + 1 := ⟨maxLoops - 1, by omega⟩
  by_cases ht : target ≤ counts 0
  · rw [runLoop, if_pos ht]
    exact ⟨by omega, by simp⟩
  · by_cases h0 : counts 0 = 0
    · have hr := runLoop_stall step hstep counts target stallLimit hmono (m + 1) 0
        ⟨0, 0⟩ (by show counts 0 ≤ 0; omega) (by show (0 : Nat) < target; omega)
        (by show max 1 (stallLimit - 0) ≤ m + 1; omega)
      rw [hr]
      refine ⟨?_, by simp⟩
      show 0 + max 1 (stallLimit - 0) ≤ stallLimit + 1
      omega
    · rw [runLoop, if_neg ht, hgrow ⟨0, 0⟩ (counts 0) (by show (0 : Nat) < counts 0; omega)]
      by_cases hb : stallLimit ≤ (⟨counts 0, 0⟩ : ScrollState).stalls
      · rw [if_pos hb]
        exact ⟨by omega, by simp⟩
      · rw [if_neg hb]
        have hb2 : 0 < stallLimit := by
          by_contra hc
          exact hb (by show stallLimit ≤ 0; omega)
        have hr := runLoop_stall step hstep counts target stallLimit hmono m 1
          ⟨counts 0, 0⟩ (hmono 0) (by show counts 0 < target; omega)
          (by show max 1 (stallLimit - 0) ≤ m; omega)
        rw [hr]
        refine ⟨?_, by simp⟩
        show 1 + max 1 (stallLimit - 0) ≤ stallLimit + 1
        omega

/-- C1.  If `revealMore` never increases the observed item count
(non-increasing count sequence), each loop stops within `stallLimit + 1`
iterations — at most one growth iteration plus at most `stallLimit`
consecutive stall iterations — and never by exhausting the iteration
ceiling, for every `stallLimit < maxIterations` (the optimized loop is the
instance with limit 5 and ceiling 100). -/
theorem stall_termination (counts : Nat → Nat) (target stallLimit maxLoops : Nat)
    (hmono : ∀ i, counts (i + 1) ≤ counts i) (hlt : stallLimit < maxLoops) :
    ((loadArticlesRun counts target stallLimit maxLoops).1 ≤ stallLimit + 1 ∧
      (loadArticlesRun counts target stallLimit maxLoops).2 ≠ .budget) ∧
    ((optimizedScrollRun counts target).1 ≤ 5 + 1 ∧
      (optimizedScrollRun counts target).2 ≠ .budget) := by
  constructor
  · exact scroll_terminates loadStep loadStep_spec loadStep_grow counts target
      stallLimit maxLoops hmono hlt
  · exact scroll_terminates optStep optStep_spec optStep_grow counts target
      5 100 hmono (by omega)

theorem stall_termination_witness :
    ((loadArticlesRun (fun _ => 3) 10 2 300).1 ≤ 2 + 1 ∧
      (loadArticlesRun (fun _ => 3) 10 2 300).2 ≠ .budget) ∧
    ((optimizedScrollRun (fun _ => 3) 10).1 ≤ 5 + 1 ∧
      (optimizedScrollRun (fun _ => 3) 10).2 ≠ .budget) :=
  stall_termination (fun _ => 3) 10 2 300 (fun _ => le_rfl) (by omega)

/-- A loop that is still live up to iteration `k` — on every earlier
iteration the count was below the target and, after the counter update, the
stall counter stayed below the limit — and whose count reaches the target at
iteration `k` stops exactly at iteration `k` with cause `target`.  The state
before iteration `i` of such a run is `loopTrace i`. -/
theorem runLoop_live_target (step : ScrollState → Nat → ScrollState)
    (counts : Nat → Nat) (target stallLimit k : Nat)
    (ht : target ≤ counts k)
    (hb : ∀ j, j < k → counts j < target)
    (hst : ∀ j, j < k → (loopTrace step counts target (j + 1)).stalls < stallLimit) :
    ∀ (fuel i : Nat), i ≤ k → k < i + fuel →
      runLoop step counts target stallLimit fuel i
        (loopTrace step counts target i) = (k + 1, .target) := by
  intro fuel
  induction fuel with
  | zero => intro i h1 h2; omega
  | succ f ih =>
    intro i h1 h2
    rcases Nat.eq_or_lt_of_le h1 with rfl | hik
    · rw [runLoop, if_pos ht]
    · have hlt : counts i < target := hb i hik
      have htr : loopTrace step counts target (i + 1) =
          step (loopTrace step counts target i) (counts i) := by
        simp [loopTrace, Nat.not_le.mpr hlt]
      rw [runLoop, if_neg (by omega),
        if_neg (by rw [← htr]; exact Nat.not_le.mpr (hst i hik)), ← htr]
      exact ih (i + 1) (by omega) (by omega)

/-- C6 (amended).  If the observed item count first reaches the target at
iteration `k` below the iteration ceiling while the loop is still live (no
earlier iteration reached the target, and the stall counter stayed below the
stall limit after every earlier update), both loops terminate exactly at
iteration `k` with stop cause `target`; but the caller is not handed a
`targetReached` boolean — the result's metadata carries `postsTarget` and
`loadedArticles`, the count of surviving deduplicated records, which can sit
below the target even then. -/
theorem target_stop_amended (counts : Nat → Nat)
    (target stallLimit maxLoops k : Nat)
    (hk1 : k < maxLoops) (hk2 : k < 100)
    (ht : target ≤ counts k)
    (hb : ∀ j, j < k → counts j < target)
    (hsload : ∀ j, j < k →
      (loopTrace loadStep counts target (j + 1)).stalls < stallLimit)
    (hsopt : ∀ j, j < k →
      (loopTrace optStep counts target (j + 1)).stalls < 5) :
    loadArticlesRun counts target stallLimit maxLoops = (k + 1, .target) ∧
    optimizedScrollRun counts target = (k + 1, .target) ∧
    (∀ (opts : ScrapeOptions) (env : ScrapeEnv), urlFalsy opts.FB_PAGE_URL = false →
      ∃ r, (scrapeFacebookPage opts env).1 = .ok r ∧
        r.meta.postsTarget = opts.POSTS_TARGET ∧
        r.meta.loadedArticles = (part000Unique env.articles).length) := by
  refine ⟨?_, ?_, ?_⟩
  · have hr := runLoop_live_target loadStep counts target stallLimit k
      ht hb hsload maxLoops 0 (by omega) (by omega)
    exact hr
  · have hr := runLoop_live_target optStep counts target 5 k
      ht hb hsopt 100 0 (by omega) (by omega)
    exact hr
  · intro opts env hurl
    rw [scrapeFacebookPage, if_neg (by simp [hurl])]
    exact ⟨_, rfl, rfl, rfl⟩

theorem target_stop_amended_witness :
    loadArticlesRun (fun i => if i < 2 then 1 else 2) 2 10 300 = (2 + 1, .target) ∧
    optimizedScrollRun (fun i => if i < 2 then 1 else 2) 2 = (2 + 1, .target) :=
  ⟨(target_stop_amended (fun i => if i < 2 then 1 else 2) 2 10 300 2 (by decide)
      (by decide) (by decide) (by decide) (by decide) (by decide)).1,
   (target_stop_amended (fun i => if i < 2 then 1 else 2) 2 10 300 2 (by decide)
      (by decide) (by decide) (by decide) (by decide) (by decide)).2.1⟩

/-- C6 (counterexample).  With two identical articles and a target of 2, the
load loop does stop for reaching the target at iteration 0, yet the only
count-versus-target metadata the result reports (`loadedArticles` against
`postsTarget`) says 1 < 2 after deduplication: no `targetReached = true` is
reported to the caller. -/
theorem target_reported_cex :
    loadArticlesRun (fun _ => 2) 2 10 300 = (1, .target) ∧
    optimizedScrollRun (fun _ => 2) 2 = (1, .target) ∧
    (part000Unique [wArticleA, wArticleA]).length = 1 ∧
    (part000Unique [wArticleA, wArticleA]).length < 2 :=
  ⟨by decide, by decide, by decide, by decide⟩

/-! ### Digit-free inputs defeat every engagement strategy (lemmas for C3) -/

theorem char_isDigit_iff (c : Char) : c.isDigit = true ↔ 48 ≤ c.toNat ∧ c.toNat ≤ 57 := by
  simp [Char.isDigit]
  exact Iff.rfl

theorem char_toNat_ofNat (n : Nat) (h : n.isValidChar) : (Char.ofNat n).toNat = n := by
  rw [Char.ofNat, dif_pos h]
  rfl

theorem char_toLower_eq (c : Char) :
    c.toLower = if c.toNat ≥ 65 ∧ c.toNat ≤ 90 then Char.ofNat (c.toNat + 32) else c := rfl

theorem isDigitEx_toLower (c : Char) (h : isDigitEx c = false) :
    isDigitEx c.toLower = false := by
  rw [char_toLower_eq]
  by_cases hc : c.toNat ≥ 65 ∧ c.toNat ≤ 90
  · rw [if_pos hc]
    have hv : (c.toNat + 32).isValidChar := Or.inl (by omega)
    have ht := char_toNat_ofNat (c.toNat + 32) hv
    simp only [isDigitEx, Bool.or_eq_false_iff]
    constructor
    · rw [Bool.eq_false_iff]
      intro hd
      have := (char_isDigit_iff _).1 hd
      omega
    · simp only [isArabicDigit, ht, Bool.and_eq_false_iff]
      left
      simp only [decide_eq_false_iff_not]
      omega
  · rw [if_neg hc]
    exact h

theorem isDigitEx_arabicToLatin_fix (c : Char) (h : isDigitEx c = false) :
    arabicToLatinChar c = c := by
  simp only [isDigitEx, Bool.or_eq_false_iff] at h
  rw [arabicToLatinChar, if_neg (by simp [h.2])]

theorem normalize_fix (l : List Char) (h : ∀ c ∈ l, isDigitEx c = false) :
    normalizeArabicDigitsL l = l := by
  rw [normalizeArabicDigitsL]
  calc l.map arabicToLatinChar = l.map id :=
        List.map_congr_left (fun a ha => isDigitEx_arabicToLatin_fix a (h a ha))
    _ = l := List.map_id l

theorem noDigit_lower (l : List Char) (h : ∀ c ∈ l, isDigitEx c = false) :
    ∀ c ∈ lowerL l, isDigitEx c = false := by
  intro c hc
  obtain ⟨c0, hc0, rfl⟩ := List.mem_map.1 hc
  exact isDigitEx_toLower c0 (h c0 hc0)

theorem noDigit_isDigit (c : Char) (h : isDigitEx c = false) : c.isDigit = false := by
  simp only [isDigitEx, Bool.or_eq_false_iff] at h
  exact h.1

theorem takeWhile_isDigit_nil (l : List Char) (h : ∀ c ∈ l, c.isDigit = false) :
    l.takeWhile Char.isDigit = [] := by
  cases l with
  | nil => rfl
  | cons c rest =>
    rw [List.takeWhile_cons, if_neg (by simp [h c (List.mem_cons_self _ _)])]

theorem leadDigits_none (l : List Char) (h : ∀ c ∈ l, c.isDigit = false) :
    leadDigits l = none := by
  rw [leadDigits]
  simp [takeWhile_isDigit_nil l h]

theorem jsParseInt_none (l : List Char) (h : ∀ c ∈ l, c.isDigit = false) :
    jsParseInt l = none := by
  have hsub : ∀ c ∈ l.dropWhile isSpaceJS, c.isDigit = false :=
    fun c hc => h c ((List.dropWhile_sublist _).subset hc)
  cases hl : l.dropWhile isSpaceJS with
  | nil => simp [jsParseInt, hl]
  | cons c rest =>
    rw [hl] at hsub
    have hrest : ∀ x ∈ rest, x.isDigit = false :=
      fun x hx => hsub x (List.mem_cons_of_mem _ hx)
    simp [jsParseInt, hl, leadDigits_none rest hrest, leadDigits_none (c :: rest) hsub]

theorem matchNumSuffix_none (suf : Char) :
    ∀ l : List Char, (∀ c ∈ l, c.isDigit = false) → matchNumSuffix suf l = none
  | [], _ => rfl
  | c :: rest, h => by
    rw [matchNumSuffix, if_neg (by simp [h c (List.mem_cons_self _ _)])]
    exact matchNumSuffix_none suf rest (fun x hx => h x (List.mem_cons_of_mem _ hx))

theorem toNumber_none (s : String) (h : ∀ c ∈ s.data, isDigitEx c = false) :
    toNumber s = none := by
  by_cases hf : strFalsy s = true
  · simp [toNumber, hf]
  · have h2 : ∀ c ∈ lowerL (normalizeArabicDigitsL s.data), isDigitEx c = false := by
      rw [normalize_fix s.data h]
      exact noDigit_lower s.data h
    have h3 : ∀ c ∈ lowerL (normalizeArabicDigitsL s.data), c.isDigit = false :=
      fun c hc => noDigit_isDigit c (h2 c hc)
    simp only [toNumber]
    rw [if_neg hf, matchNumSuffix_none 'k' _ h3, matchNumSuffix_none 'm' _ h3,
      jsParseInt_none _ (fun c hc => h3 c (List.mem_of_mem_filter hc))]

theorem capNumKMAt_subset (l : List Char) : ∀ c ∈ capNumKMAt l, c ∈ l := by
  intro c hc
  rw [capNumKMAt] at hc
  have hrun : c ∈ l.takeWhile isNumClass → c ∈ l :=
    fun h => (List.takeWhile_sublist _).subset h
  have hsp : c ∈ (l.dropWhile isNumClass).takeWhile isSpaceJS → c ∈ l :=
    fun h => (List.dropWhile_sublist _).subset ((List.takeWhile_sublist _).subset h)
  rcases hr : (l.dropWhile isNumClass).dropWhile isSpaceJS with _ | ⟨d, r2⟩
  · simp only [hr] at hc
    rcases List.mem_append.1 hc with h | h
    · exact hrun h
    · exact hsp h
  · simp only [hr] at hc
    have hd : d ∈ l := by
      have : d ∈ (l.dropWhile isNumClass).dropWhile isSpaceJS := by
        rw [hr]; exact List.mem_cons_self _ _
      exact (List.dropWhile_sublist _).subset ((List.dropWhile_sublist _).subset this)
    split at hc
    · rcases List.mem_append.1 hc with h | h
      · rcases List.mem_append.1 h with h2 | h2
        · exact hrun h2
        · exact hsp h2
      · rw [List.mem_singleton.1 h]
        exact hd
    · rcases List.mem_append.1 hc with h | h
      · exact hrun h
      · exact hsp h

theorem capNumKM_subset : ∀ (l cap : List Char), capNumKM l = some cap → ∀ c ∈ cap, c ∈ l
  | [], cap, h => by simp [capNumKM] at h
  | a :: rest, cap, h => by
    rw [capNumKM] at h
    by_cases ha : isNumClass a = true
    · rw [if_pos ha] at h
      injection h with h2
      rw [← h2]
      exact capNumKMAt_subset (a :: rest)
    · rw [if_neg ha] at h
      exact fun c hc => List.mem_cons_of_mem _ (capNumKM_subset rest cap h c hc)

theorem dropColon_sublist (l : List Char) : List.Sublist (dropColon l) l := by
  cases l with
  | nil => simp [dropColon]
  | cons c rest =>
    rw [dropColon]
    split
    · exact ((List.dropWhile_sublist _).trans (List.sublist_cons_self c rest))
    · exact List.Sublist.refl _

theorem totalInteractionsAt_subset (l cap : List Char)
    (h : totalInteractionsAt l = some cap) : ∀ c ∈ cap, c ∈ l := by
  simp only [totalInteractionsAt] at h
  split at h
  · split at h
    · split at h
      · exact absurd h (by simp)
      · injection h with h2
        intro c hc
        rw [← h2] at hc
        have hs : List.Sublist (dropColon ((((l.drop "كل".data.length).dropWhile
            isSpaceJS).drop "التفاعلات".data.length).dropWhile isSpaceJS)) l :=
          ((dropColon_sublist _).trans
            (((List.dropWhile_sublist _).trans (List.drop_sublist _ _)).trans
              ((List.dropWhile_sublist _).trans (List.drop_sublist _ _))))
        exact hs.subset ((List.takeWhile_sublist _).subset hc)
    · exact absurd h (by simp)
  · exact absurd h (by simp)

theorem matchTotalInteractions_subset : ∀ (l cap : List Char),
    matchTotalInteractions l = some cap → ∀ c ∈ cap, c ∈ l
  | [], cap, h => by simp [matchTotalInteractions] at h
  | a :: rest, cap, h => by
    rw [matchTotalInteractions] at h
    rcases ht : totalInteractionsAt (a :: rest) with _ | cap2
    · rw [ht] at h
      exact fun c hc =>
        List.mem_cons_of_mem _ (matchTotalInteractions_subset rest cap h c hc)
    · rw [ht] at h
      injection h with h2
      rw [← h2]
      exact totalInteractionsAt_subset (a :: rest) cap2 ht

theorem scanReactLabels_none : ∀ (labels : List String),
    (∀ lbl ∈ labels, ∀ c ∈ lbl.data, isDigitEx c = false) →
    scanReactLabels labels = none
  | [], _ => rfl
  | lbl :: rest, h => by
    have hlbl := h lbl (List.mem_cons_self _ _)
    have hrest : ∀ l ∈ rest, ∀ c ∈ l.data, isDigitEx c = false :=
      fun l hl => h l (List.mem_cons_of_mem _ hl)
    have ih := scanReactLabels_none rest hrest
    rw [scanReactLabels]
    by_cases h1 : strFalsy lbl = true
    · rw [if_pos h1]
      exact ih
    · rw [if_neg h1]
      by_cases h2 : reactLabelTest lbl = true
      · rw [if_pos h2]
        rcases hcap : capNumKM lbl.data with _ | cap
        · exact ih
        · show (match toNumber (String.mk cap) with
            | some v => some v
            | none => scanReactLabels rest) = none
          rw [toNumber_none _ (fun c hc => hlbl c (capNumKM_subset _ _ hcap c hc))]
          exact ih
      · rw [if_neg h2]
        exact ih

theorem scanReactSpans_none (full : String) : ∀ (spans : List String),
    (∀ sp ∈ spans, ∀ c ∈ sp.data, isDigitEx c = false) →
    scanReactSpans full spans = none
  | [], _ => rfl
  | sp :: rest, h => by
    have hsp := h sp (List.mem_cons_self _ _)
    have ih := scanReactSpans_none full rest
      (fun l hl => h l (List.mem_cons_of_mem _ hl))
    rw [scanReactSpans]
    have hany : sp.data.any isDigitEx = false := by
      rw [List.any_eq_false]
      intro c hc
      simp [hsp c hc]
    rw [if_neg (by simp [hany])]
    exact ih

/-- Strategies of `extractReactions` (src/scraper.js) all fail on an article
whose text, labels and spans contain no digit of either script; the result is
`null`, not a fabricated number. -/
theorem extractReactions_none (a : Article)
    (h1 : ∀ c ∈ a.innerText.data, isDigitEx c = false)
    (h2 : ∀ lbl ∈ a.ariaLabels, ∀ c ∈ lbl.data, isDigitEx c = false)
    (h3 : ∀ sp ∈ a.spans, ∀ c ∈ sp.data, isDigitEx c = false) :
    extractReactions a = none := by
  rw [extractReactions]
  rcases hm : matchTotalInteractions a.innerText.data with _ | cap
  · show (match scanReactLabels a.ariaLabels with
      | some v => some v
      | none => scanReactSpans a.innerText a.spans) = none
    rw [scanReactLabels_none _ h2]
    exact scanReactSpans_none _ _ h3
  · show toNumber (String.mk cap) = none
    exact toNumber_none _
      (fun c hc => h1 c (matchTotalInteractions_subset _ _ hm c hc))

theorem splitSepHere_sublist (l r : List Char) (h : splitSepHere l = some r) :
    List.Sublist r l := by
  simp only [splitSepHere] at h
  split at h
  · split at h
    · injection h with h2
      rw [← h2]
      exact ((List.dropWhile_sublist _).trans (List.drop_sublist _ _)).trans
        ((List.dropWhile_sublist _).trans (List.drop_sublist _ _))
    · exact absurd h (by simp)
  · exact absurd h (by simp)

theorem afterFirstSep_sublist : ∀ (l r : List Char), afterFirstSep l = some r →
    List.Sublist r l
  | [], r, h => by simp [afterFirstSep] at h
  | c :: rest, r, h => by
    rw [afterFirstSep] at h
    rcases hs : splitSepHere (c :: rest) with _ | r2
    · rw [hs] at h
      exact (afterFirstSep_sublist rest r h).trans (List.sublist_cons_self c rest)
    · rw [hs] at h
      injection h with h2
      rw [← h2]
      exact splitSepHere_sublist _ _ hs

theorem beforeNextSep_sublist : ∀ l : List Char, List.Sublist (beforeNextSep l) l
  | [] => by simp [beforeNextSep]
  | c :: rest => by
    rw [beforeNextSep]
    rcases hs : splitSepHere (c :: rest) with _ | r2
    · exact (beforeNextSep_sublist rest).cons₂ c
    · exact List.nil_sublist _

theorem wbNumbersAux_nil : ∀ (fuel : Nat) (b : Bool) (l : List Char),
    (∀ c ∈ l, c.isDigit = false) → wbNumbersAux fuel b l = []
  | 0, _, _, _ => rfl
  | fuel + 1, b, [], _ => rfl
  | fuel + 1, b, c :: rest, h => by
    rw [wbNumbersAux]
    rw [if_neg (by simp [h c (List.mem_cons_self _ _)])]
    exact wbNumbersAux_nil fuel (isWordCharJS c) rest
      (fun x hx => h x (List.mem_cons_of_mem _ hx))

theorem firstDigitRun_none : ∀ l : List Char, (∀ c ∈ l, c.isDigit = false) →
    firstDigitRun l = none
  | [], _ => rfl
  | c :: rest, h => by
    rw [firstDigitRun, if_neg (by simp [h c (List.mem_cons_self _ _)])]
    exact firstDigitRun_none rest (fun x hx => h x (List.mem_cons_of_mem _ hx))

theorem scanButtons_none (metric : Metric) : ∀ (labels : List String),
    (∀ lbl ∈ labels, ∀ c ∈ lbl.data, isDigitEx c = false) →
    scanButtons metric labels = none
  | [], _ => rfl
  | lbl :: rest, h => by
    have hlbl := h lbl (List.mem_cons_self _ _)
    have ih := scanButtons_none metric rest
      (fun l hl => h l (List.mem_cons_of_mem _ hl))
    have hlab : ∀ c ∈ normalizeArabicDigitsL (lowerL lbl.data), c.isDigit = false := by
      intro c hc
      obtain ⟨c1, hc1, rfl⟩ := List.mem_map.1 hc
      obtain ⟨c0, hc0, rfl⟩ := List.mem_map.1 hc1
      have hd0 := hlbl c0 hc0
      have hd1 := isDigitEx_toLower c0 hd0
      rw [isDigitEx_arabicToLatin_fix _ hd1]
      exact noDigit_isDigit _ hd1
    rw [scanButtons]
    by_cases ht : ((metricPats metric).any
        (fun p => containsSub p (normalizeArabicDigitsL (lowerL lbl.data)))) = true
    · rw [if_pos ht, firstDigitRun_none _ hlab]
      exact ih
    · rw [if_neg ht]
      exact ih

/-- On a digit-free article every strategy of `extractEngagement`
(src/scraper-optimized.js) fails, and the function returns the literal 0 of
its final fallback, for each metric. -/
theorem extractEngagement_zero (a : Article)
    (h1 : ∀ c ∈ a.innerText.data, isDigitEx c = false)
    (h2 : ∀ lbl ∈ a.ariaLabels, ∀ c ∈ lbl.data, isDigitEx c = false)
    (metric : Metric) : extractEngagement a metric = 0 := by
  have hnorm : normalizeArabicDigitsL a.innerText.data = a.innerText.data :=
    normalize_fix _ h1
  have hstrat : (if containsSub "كل التفاعلات:".data a.innerText.data then
      match splitAfterLabel (normalizeArabicDigitsL a.innerText.data) with
      | some afterLabel =>
        if afterLabel.isEmpty then none
        else
          let numbers := wbNumbers afterLabel
          if 4 ≤ numbers.length then
            match metric with
            | .reactions => some (numbers.getD 0 0)
            | .comments => some (numbers.getD 2 0)
            | .shares => some (numbers.getD 3 0)
          else if 2 ≤ numbers.length then
            match metric with
            | .reactions => some (numbers.getD 0 0)
            | .comments => some (numbers.getD 1 0)
            | .shares => some 0
          else if numbers.length = 1 then
            match metric with
            | .reactions => some (numbers.getD 0 0)
            | _ => none
          else none
      | none => none
    else none) = (none : Option Nat) := by
    by_cases hc : containsSub "كل التفاعلات:".data a.innerText.data = true
    · rw [if_pos hc]
      rcases hs : splitAfterLabel (normalizeArabicDigitsL a.innerText.data)
        with _ | afterLabel
      · rfl
      · have hsub : ∀ c ∈ afterLabel, c.isDigit = false := by
          rw [splitAfterLabel] at hs
          obtain ⟨r, hr, rfl⟩ := Option.map_eq_some'.1 hs
          intro c hc2
          have hcl : c ∈ a.innerText.data := by
            rw [hnorm] at hr
            exact (afterFirstSep_sublist _ _ hr).subset
              ((beforeNextSep_sublist r).subset hc2)
          exact noDigit_isDigit c (h1 c hcl)
        show (if afterLabel.isEmpty then none else _) = (none : Option Nat)
        by_cases he : afterLabel.isEmpty = true
        · rw [if_pos he]
        · rw [if_neg he]
          have hnum : wbNumbers afterLabel = [] := wbNumbersAux_nil _ _ _ hsub
          simp [hnum]
    · rw [if_neg hc]
  rw [extractEngagement, hstrat, scanButtons_none metric a.ariaLabels h2]

/-- C3 (amended).  On a content item where every engagement-extraction
strategy must fail — the item shows no digit of either script anywhere in
its text, aria-labels or spans — the scraper.js extractor returns `null`
(absent), but the optimized extractor returns the number 0 of its
`return 0` fallback for every metric: only the first of the two extraction
pipelines leaves the counter absent. -/
theorem engagement_absent_amended (a : Article)
    (h1 : ∀ c ∈ a.innerText.data, isDigitEx c = false)
    (h2 : ∀ lbl ∈ a.ariaLabels, ∀ c ∈ lbl.data, isDigitEx c = false)
    (h3 : ∀ sp ∈ a.spans, ∀ c ∈ sp.data, isDigitEx c = false) :
    extractReactions a = none ∧ ∀ metric, extractEngagement a metric = 0 :=
  ⟨extractReactions_none a h1 h2 h3, fun metric => extractEngagement_zero a h1 h2 metric⟩

theorem engagement_absent_amended_witness :
    extractReactions wArticleA = none ∧ ∀ metric, extractEngagement wArticleA metric = 0 :=
  engagement_absent_amended wArticleA (by decide) (by decide) (by decide)

/-- C3 (counterexample).  On an article with no digits — no
"total interactions" label, no numeric aria-label, no numeric span, so every
strategy fails — the optimized scraper's record carries the fabricated
number 0 in all three engagement fields (the record type has no absent
state), contradicting the claim that the counter is absent whenever all
strategies fail. -/
theorem engagement_zero_cex :
    extractEngagement
      { innerText := "Great product launch today"
        ariaLabels := ["Leave a comment for us"], spans := []
        timeWithAttr := none, aTime := none, linkText := none } .reactions = 0 ∧
    (mkOptPost 0
      { innerText := "Great product launch today"
        ariaLabels := ["Leave a comment for us"], spans := []
        timeWithAttr := none, aTime := none, linkText := none }).reactions = 0 ∧
    (mkOptPost 0
      { innerText := "Great product launch today"
        ariaLabels := ["Leave a comment for us"], spans := []
        timeWithAttr := none, aTime := none, linkText := none }).comments = 0 ∧
    (mkOptPost 0
      { innerText := "Great product launch today"
        ariaLabels := ["Leave a comment for us"], spans := []
        timeWithAttr := none, aTime := none, linkText := none }).shares = 0 :=
  ⟨by decide, by decide, by decide, by decide⟩

/-! ### Calendar lemmas (for C7) -/

theorem monthSpan_succ_right (y : Nat) : ∀ (k m0 : Nat),
    monthSpan y m0 (k + 1) = monthSpan y m0 k + daysInMonth y (m0 + k)
  | 0, m0 => by simp [monthSpan]
  | k + 1, m0 => by
    rw [monthSpan, monthSpan_succ_right y k (m0 + 1), monthSpan]
    have e : m0 + 1 + k = m0 + (k + 1) := by omega
    rw [e]
    omega

theorem monthSpan_full (y : Nat) : monthSpan y 1 12 = daysInYear y := by
  cases h : isLeap y <;> simp [monthSpan, daysInMonth, daysInYear, h]

theorem monthSpan_le (y m : Nat) (hm1 : 1 ≤ m) (hm2 : m ≤ 12) :
    monthSpan y 1 (m - 1) + daysInMonth y m ≤ daysInYear y := by
  have hstep : monthSpan y 1 m = monthSpan y 1 (m - 1) + daysInMonth y m := by
    have h := monthSpan_succ_right y (m - 1) 1
    have e1 : m - 1 + 1 = m := by omega
    have e2 : 1 + (m - 1) = m := by omega
    rw [e1, e2] at h
    exact h
  have hmono : ∀ a j : Nat, monthSpan y 1 a ≤ monthSpan y 1 (a + j) := by
    intro a j
    induction j with
    | zero => simp
    | succ k ih =>
      have e : a + (k + 1) = (a + k) + 1 := by omega
      rw [e, monthSpan_succ_right y (a + k) 1]
      omega
  have h12 := hmono m (12 - m)
  have e : m + (12 - m) = 12 := by omega
  rw [e, monthSpan_full y] at h12
  omega

theorem findYear_spec : ∀ (k fuel y0 r : Nat), k ≤ fuel →
    r < daysInYear (y0 + k) →
    findYear fuel y0 (yearSpan y0 k + r) = (y0 + k, r)
  | 0, fuel, y0, r, _, hr => by
    simp only [yearSpan, Nat.zero_add]
    cases fuel with
    | zero => rfl
    | succ f =>
      rw [findYear, if_pos (by simpa using hr)]
      simp
  | k + 1, fuel, y0, r, hk, hr => by
    obtain ⟨f, rfl⟩ : ∃ f, fuel = f + 1 := ⟨fuel - 1, by omega⟩
    rw [yearSpan, findYear, if_neg (by omega)]
    have e : daysInYear y0 + yearSpan (y0 + 1) k + r - daysInYear y0 =
        yearSpan (y0 + 1) k + r := by omega
    rw [e, findYear_spec k f (y0 + 1) r (by omega)
      (by have e2 : y0 + 1 + k = y0 + (k + 1) := by omega
          rw [e2]; exact hr)]
    have e3 : y0 + 1 + k = y0 + (k + 1) := by omega
    rw [e3]

theorem findMonth_spec (y : Nat) : ∀ (k fuel m0 r : Nat), k ≤ fuel →
    r < daysInMonth y (m0 + k) →
    findMonth y fuel m0 (monthSpan y m0 k + r) = (m0 + k, r + 1)
  | 0, fuel, m0, r, _, hr => by
    simp only [monthSpan, Nat.zero_add]
    cases fuel with
    | zero => rfl
    | succ f =>
      rw [findMonth, if_pos (by simpa using hr)]
      simp
  | k + 1, fuel, m0, r, hk, hr => by
    obtain ⟨f, rfl⟩ : ∃ f, fuel = f + 1 := ⟨fuel - 1, by omega⟩
    rw [monthSpan, findMonth, if_neg (by omega)]
    have e : daysInMonth y m0 + monthSpan y (m0 + 1) k + r - daysInMonth y m0 =
        monthSpan y (m0 + 1) k + r := by omega
    rw [e, findMonth_spec y k f (m0 + 1) r (by omega)
      (by have e2 : m0 + 1 + k = m0 + (k + 1) := by omega
          rw [e2]; exact hr)]
    have e3 : m0 + 1 + k = m0 + (k + 1) := by omega
    rw [e3]

/-- The UTC fields of the epoch-milliseconds value of in-range fields are
those fields themselves. -/
theorem utc_roundtrip (y m d h mi s ms : Nat) (hy : y < 10000)
    (hm1 : 1 ≤ m) (hm2 : m ≤ 12) (hd1 : 1 ≤ d) (hd2 : d ≤ daysInMonth y m)
    (hh : h < 24) (hmi : mi < 60) (hs : s < 60) (hms : ms < 1000) :
    utcComponents (epochMillisN y m d h mi s ms) =
      ⟨y, m, d, h, mi, s, ms⟩ := by
  have hbound : monthSpan y 1 (m - 1) + (d - 1) < daysInYear y := by
    have := monthSpan_le y m hm1 hm2
    omega
  have he : epochMillisN y m d h mi s ms + ((epochDays : Nat) : Int) * 86400000 =
      (((yearSpan 0 y + (monthSpan y 1 (m - 1) + (d - 1))) * 86400000 +
        (h * 3600000 + mi * 60000 + s * 1000 + ms) : Nat) : Int) := by
    rw [epochMillisN, epochMillisD]
    push_cast
    omega
  have h1 : ((yearSpan 0 y + (monthSpan y 1 (m - 1) + (d - 1))) * 86400000 +
      (h * 3600000 + mi * 60000 + s * 1000 + ms)) / 86400000 =
      yearSpan 0 y + (monthSpan y 1 (m - 1) + (d - 1)) := by
    omega
  have h2 : ((yearSpan 0 y + (monthSpan y 1 (m - 1) + (d - 1))) * 86400000 +
      (h * 3600000 + mi * 60000 + s * 1000 + ms)) % 86400000 =
      h * 3600000 + mi * 60000 + s * 1000 + ms := by
    omega
  have hfy := findYear_spec y 10000 0 (monthSpan y 1 (m - 1) + (d - 1))
    (by omega) (by simpa using hbound)
  have hfm := findMonth_spec y (m - 1) 12 1 (d - 1) (by omega)
    (by have e : 1 + (m - 1) = m := by omega
        rw [e]
        omega)
  simp only [utcComponents]
  rw [he, Int.toNat_natCast, h1, h2, hfy]
  simp only [Nat.zero_add]
  rw [hfm]
  dsimp only
  simp only [DateParts.mk.injEq, true_and]
  refine ⟨by omega, by omega, by omega, by omega, by omega, by omega⟩

theorem digitChar_mem (n : Nat) :
    digitChar n ∈ ['0', '1', '2', '3', '4', '5', '6', '7', '8', '9'] := by
  rw [digitChar]
  have hlt : n % 10 < 10 := Nat.mod_lt _ (by omega)
  generalize n % 10 = k at hlt
  interval_cases k <;> simp

theorem digitChar_isDigit (n : Nat) : (digitChar n).isDigit = true := by
  have hm := digitChar_mem n
  simp only [List.mem_cons, List.not_mem_nil, or_false] at hm
  rcases hm with h | h | h | h | h | h | h | h | h | h <;> rw [h] <;> decide

theorem dval_digitChar (n : Nat) : dval (digitChar n) = n % 10 := by
  rw [digitChar]
  have hlt : n % 10 < 10 := Nat.mod_lt _ (by omega)
  generalize n % 10 = k at hlt
  interval_cases k <;> decide

theorem digitChar_plain (n : Nat) :
    isSpaceJS (digitChar n) = false ∧ arabicToLatinChar (digitChar n) = digitChar n := by
  have hm := digitChar_mem n
  simp only [List.mem_cons, List.not_mem_nil, or_false] at hm
  rcases hm with h | h | h | h | h | h | h | h | h | h <;> rw [h] <;>
    exact ⟨by decide, by decide⟩

theorem isoChars_plain (y m d h mi s ms : Nat) :
    ∀ c ∈ isoChars y m d h mi s ms,
      isSpaceJS c = false ∧ arabicToLatinChar c = c := by
  intro c hc
  simp only [isoChars, pad4, pad2, pad3, List.mem_append, List.mem_cons,
    List.not_mem_nil, or_false] at hc
  casesm* _ ∨ _ <;> subst_vars <;>
    first
      | exact digitChar_plain _
      | exact ⟨by decide, by decide⟩

theorem isoChars_normalize (y m d h mi s ms : Nat) :
    normalizeArabicDigitsL (isoChars y m d h mi s ms) = isoChars y m d h mi s ms := by
  rw [normalizeArabicDigitsL]
  calc (isoChars y m d h mi s ms).map arabicToLatinChar
      = (isoChars y m d h mi s ms).map id :=
        List.map_congr_left (fun a ha => (isoChars_plain y m d h mi s ms a ha).2)
    _ = isoChars y m d h mi s ms := List.map_id _

theorem trimJS_fix (l : List Char) (h : ∀ c ∈ l, isSpaceJS c = false) :
    trimJS l = l := by
  have h1 : l.dropWhile isSpaceJS = l := by
    cases l with
    | nil => rfl
    | cons a t =>
      rw [List.dropWhile_cons, if_neg (by simp [h a (List.mem_cons_self _ _)])]
  rw [trimJS, h1]
  have h2 : l.reverse.dropWhile isSpaceJS = l.reverse := by
    cases hr : l.reverse with
    | nil => rfl
    | cons a t =>
      have ha : a ∈ l := by
        rw [← List.mem_reverse, hr]
        exact List.mem_cons_self _ _
      rw [List.dropWhile_cons, if_neg (by simp [h a ha])]
  rw [h2, List.reverse_reverse]

theorem isoTest_isoChars (y m d h mi s ms : Nat) :
    isoTest (isoChars y m d h mi s ms) = true := by
  simp only [isoChars, pad4, pad2, pad3, List.cons_append, List.nil_append]
  rw [isoTest]
  simp [isoTestAt, digitChar_isDigit]

theorem jsDateParseISO_isoChars (y m d h mi s ms : Nat)
    (hy : y < 10000) (hm : m < 100) (hd : d < 100) (hh : h < 100)
    (hmi : mi < 100) (hs : s < 100) (hms : ms < 1000) :
    jsDateParseISO (isoChars y m d h mi s ms) = mkUTC y m d h mi s ms := by
  simp only [isoChars, pad4, pad2, pad3, List.cons_append, List.nil_append]
  simp only [jsDateParseISO, read4, read2, read3, digitChar_isDigit,
    dval_digitChar, parseTZ, Bool.and_self, Bool.and_true, Bool.true_and,
    if_true, reduceIte]
  congr 1 <;> omega

/-- C7.  `parseDateToISO` maps a string in strict (canonical) ISO form —
`toISOString` shape, four-digit year, hour below 24 — back to itself when it
denotes a valid date, and to `none` when its fields are out of calendar
bounds. -/
theorem parseDateToISO_iso_roundtrip (now : Int) (y m d h mi s ms : Nat)
    (hy : y < 10000) (hm : m < 100) (hd : d < 100) (hh : h < 24)
    (hmi : mi < 100) (hs : s < 100) (hms : ms < 1000) :
    parseDateToISO now (isoString y m d h mi s ms) =
      if validDate y m d h mi s ms then some (isoString y m d h mi s ms)
      else none := by
  have hdata : (isoString y m d h mi s ms).data = isoChars y m d h mi s ms := rfl
  have hfalsy : strFalsy (isoString y m d h mi s ms) = false := by
    rw [strFalsy, hdata]
    simp [isoChars, pad4]
  rw [parseDateToISO, if_neg (by simp [hfalsy]), hdata,
    isoChars_normalize,
    trimJS_fix _ (fun c hc => (isoChars_plain y m d h mi s ms c hc).1),
    if_pos (isoTest_isoChars y m d h mi s ms),
    jsDateParseISO_isoChars y m d h mi s ms hy hm hd (by omega) hmi hs hms,
    mkUTC]
  by_cases hv : validDate y m d h mi s ms = true
  · rw [if_pos hv, if_pos hv]
    have hfields : 1 ≤ m ∧ m ≤ 12 ∧ 1 ≤ d ∧ d ≤ daysInMonth y m ∧
        mi ≤ 59 ∧ s ≤ 59 := by
      simp only [validDate, Bool.and_eq_true, decide_eq_true_eq] at hv
      omega
    rw [Option.map_some']
    congr 1
    rw [toISOStringModel,
      utc_roundtrip y m d h mi s ms hy hfields.1 hfields.2.1 hfields.2.2.1
        hfields.2.2.2.1 hh (by omega) (by omega) hms]
  · rw [if_neg hv, if_neg hv]
    rfl

theorem parseDateToISO_iso_roundtrip_witness :
    parseDateToISO 0 (isoString 2024 1 10 9 30 15 250) =
      some (isoString 2024 1 10 9 30 15 250) := by
  have h := parseDateToISO_iso_roundtrip 0 2024 1 10 9 30 15 250
    (by omega) (by omega) (by omega) (by omega) (by omega) (by omega) (by omega)
  rw [h, if_pos (by decide)]
